import Mathlib

/-!
# bamgoo/view : template resolution and composition

A shallow embedding of `default.go`, `internal.go` and `module.go`.

* Go maps (`Map`, `template.FuncMap`, `map[string]Driver`) are association
  lists read through `GoMap.get`, written through `GoMap.set` and iterated
  through `GoMap.range` (one visit per key).
* The file system is read through `Env.isFile` (`os.Stat` succeeds and the
  entry is not a directory) and `Env.readFile` (`os.ReadFile`).
* `html/template` is an external library.  A compiled template is a list of
  nodes, each either a pipeline that only reads the data bag or a call of one
  of the thirteen parser directives; `Env.compile` stands for
  `engine.New(name).Parse(text)`.
* Recursion through the `render` directive is bounded by a fuel argument;
  `none` means that the fuel ran out, never a Go error.
-/

namespace View

/-! ## Go maps -/

/-- A Go `map[string]V`. -/
abbrev GoMap (V : Type) := List (String × V)

namespace GoMap

/-- Lookup `m[k]` with the comma-ok result as an option. -/
def get {V : Type} : GoMap V → String → Option V
  | [], _ => none
  | (k', v) :: rest, k => if k' = k then some v else get rest k

/-- Assignment `m[k] = v`. -/
def set {V : Type} : GoMap V → String → V → GoMap V
  | [], k, v => [(k, v)]
  | (k', v') :: rest, k, v => if k' = k then (k, v) :: rest else (k', v') :: set rest k v

/-- The pairs visited by `for k, v := range m`: each key once, with the value
that `m[k]` reads. -/
def range {V : Type} : GoMap V → List (String × V)
  | [] => []
  | (k, v) :: rest => (k, v) :: (range rest).filter (fun kv => decide (kv.1 ≠ k))

end GoMap

/-! ## Values -/

/-- The Go values of type `Any` that the package inspects. -/
inductive Any where
  | null
  | bool (b : Bool)
  | int (i : Int)
  | str (s : String)
  | map (m : List (String × Any))
  | func (id : Nat)

/-- The type `Map = map[string]Any`. -/
abbrev Map := GoMap Any

/-! ## Data model (`module.go`) -/

structure Config where
  Driver : String
  Root : String
  Shared : String
  Left : String
  Right : String
  Setting : Map

structure Body where
  View : String
  Site : String
  Language : String
  Data : Map
  Model : Map
  Helpers : Map

/-- The errors a render can return: the package constant
`ErrInvalidConnection` or a formatted message (`fmt.Errorf`). -/
inductive Error where
  | ErrInvalidConnection
  | msg (s : String)

/-- The interface `Connection` (`driver.go`); `Health` is not used here. -/
structure Connection where
  Open : Option String
  Close : Option String
  Parse : Body → String × Option Error

structure Instance where
  conn : Option Connection
  Config : Config
  Setting : Map

/-- The interface `Driver` (`driver.go`). -/
structure Driver where
  Connect : Instance → Except String Connection

structure Helper where
  Name : String
  Desc : String
  Alias : Option (List String)
  Action : Any

/-! ## Parser state (`default.go`) -/

structure defaultConnection where
  inst : Instance

/-- An invocation of one of the thirteen parser directives, with the
arguments of the Go method it is bound to. -/
inductive Call where
  | layout (name : String) (vals : List Any)
  | title (args : List String)
  | author (args : List String)
  | keywords (args : List String)
  | description (args : List String)
  | body
  | render (name : String) (vals : List Any)
  | meta (name content : String) (https : List Bool)
  | metas
  | style (path : String) (args : List String)
  | styles
  | script (path : String) (args : List String)
  | scripts

/-- The thirteen methods of the parser that `newParser` binds as helpers. -/
inductive Method where
  | layoutHelper | titleHelper | authorHelper | keywordsHelper | descriptionHelper
  | bodyHelper | renderHelper | metaHelper | metasHelper | styleHelper | stylesHelper
  | scriptHelper | scriptsHelper
  deriving DecidableEq

/-- A value stored in a `template.FuncMap`: a bound method of the parser or a
value that came from outside. -/
inductive Callable where
  | method (f : Method)
  | value (a : Any)

/-- The struct `defaultParser`.  The field `engine` is the helper table
(`FuncMap`) the engine was created with; `calls` is a ghost field, absent
from the source, that records every directive invocation with the output it
returned, in order of return. -/
structure defaultParser where
  connection : defaultConnection
  body : Body
  engine : GoMap Callable
  layout : String
  path : String
  model : Option Map
  render : String
  title : String
  author : String
  description : String
  keywords : String
  metas : List String
  styles : List String
  scripts : List String
  calls : List (Call × String)

/-! ## Path resolution -/

/-- The loop `for _, f := range candidates { if st, err := os.Stat(f); err ==
nil && !st.IsDir() { return f, nil } }`; `none` when the loop falls through. -/
def statLoop (isFile : String → Bool) : List String → Option String
  | [] => none
  | f :: rest => if isFile f then some f else statLoop isFile rest

/-- The slice `candidates` of `findLayoutFile`. -/
def layoutCandidates (p : defaultParser) (name : String) : List String :=
  let cfg := p.connection.inst.Config
  let body := p.body
  let candidates : List String := []
  let candidates := if p.path ≠ "" then candidates ++ [p.path ++ "/" ++ name ++ ".html"] else candidates
  let candidates := candidates ++ [cfg.Root ++ "/" ++ body.Language ++ "/" ++ name ++ ".html"]
  let candidates := if body.Site ≠ "" then
      candidates ++ [cfg.Root ++ "/" ++ body.Site ++ "/" ++ body.Language ++ "/" ++ name ++ ".html",
        cfg.Root ++ "/" ++ body.Site ++ "/" ++ body.Language ++ "/" ++ cfg.Shared ++ "/" ++ name ++ ".html"]
    else candidates
  let candidates := candidates ++ [cfg.Root ++ "/" ++ body.Language ++ "/" ++ name ++ ".html"]
  let candidates := if body.Site ≠ "" then
      candidates ++ [cfg.Root ++ "/" ++ body.Site ++ "/" ++ cfg.Shared ++ "/" ++ name ++ ".html",
        cfg.Root ++ "/" ++ body.Site ++ "/" ++ name ++ ".html"]
    else candidates
  let candidates := candidates ++ [cfg.Root ++ "/" ++ cfg.Shared ++ "/" ++ name ++ ".html"]
  candidates ++ [cfg.Root ++ "/" ++ name ++ ".html"]

def findLayoutFile (isFile : String → Bool) (p : defaultParser) (name : String) :
    Except String String :=
  match statLoop isFile (layoutCandidates p name) with
  | some f => .ok f
  | none => .error ("layout " ++ name ++ " not exist")

/-- The slice `candidates` of `findBodyFile`. -/
def bodyCandidates (p : defaultParser) (name : String) : List String :=
  let cfg := p.connection.inst.Config
  let body := p.body
  let candidates : List String := []
  let candidates := if body.Site ≠ "" then
      candidates ++ [cfg.Root ++ "/" ++ body.Site ++ "/" ++ body.Language ++ "/" ++ name ++ ".html",
        cfg.Root ++ "/" ++ body.Site ++ "/" ++ cfg.Shared ++ "/" ++ body.Language ++ "/" ++ name ++ ".html"]
    else candidates
  let candidates := candidates ++ [cfg.Root ++ "/" ++ body.Language ++ "/" ++ name ++ ".html"]
  let candidates := candidates ++ [cfg.Root ++ "/" ++ body.Language ++ "/" ++ name ++ "/index.html"]
  let candidates := candidates ++ [cfg.Root ++ "/" ++ body.Language ++ "/" ++ cfg.Shared ++ "/" ++ name ++ ".html"]
  let candidates := candidates ++
    [cfg.Root ++ "/" ++ body.Language ++ "/" ++ cfg.Shared ++ "/" ++ name ++ "/index.html"]
  let candidates := if body.Site ≠ "" then
      candidates ++ [cfg.Root ++ "/" ++ body.Site ++ "/" ++ name ++ ".html",
        cfg.Root ++ "/" ++ body.Site ++ "/" ++ name ++ "/index.html",
        cfg.Root ++ "/" ++ body.Site ++ "/" ++ cfg.Shared ++ "/" ++ name ++ ".html"]
    else candidates
  let candidates := candidates ++ [cfg.Root ++ "/" ++ name ++ ".html"]
  let candidates := candidates ++ [cfg.Root ++ "/" ++ name ++ "/index.html"]
  let candidates := candidates ++ [cfg.Root ++ "/" ++ cfg.Shared ++ "/" ++ name ++ ".html"]
  candidates ++ [cfg.Root ++ "/" ++ cfg.Shared ++ "/" ++ name ++ "/index.html"]

def findBodyFile (isFile : String → Bool) (p : defaultParser) (name : String) :
    Except String String :=
  match statLoop isFile (bodyCandidates p name) with
  | some f => .ok f
  | none => .error ("view " ++ name ++ " not exist")

/-- The slice `candidates` of `findRenderFile`. -/
def renderCandidates (p : defaultParser) (name : String) : List String :=
  let cfg := p.connection.inst.Config
  let body := p.body
  let candidates : List String := []
  let candidates := if p.path ≠ "" then candidates ++ [p.path ++ "/" ++ name ++ ".html"] else candidates
  let candidates := if body.Site ≠ "" then
      candidates ++ [cfg.Root ++ "/" ++ body.Site ++ "/" ++ body.Language ++ "/" ++ cfg.Shared ++ "/" ++ name ++ ".html",
        cfg.Root ++ "/" ++ body.Site ++ "/" ++ body.Language ++ "/" ++ name ++ ".html"]
    else candidates
  let candidates := candidates ++ [cfg.Root ++ "/" ++ body.Language ++ "/" ++ cfg.Shared ++ "/" ++ name ++ ".html"]
  let candidates := candidates ++ [cfg.Root ++ "/" ++ body.Language ++ "/" ++ name ++ ".html"]
  let candidates := if body.Site ≠ "" then
      candidates ++ [cfg.Root ++ "/" ++ body.Site ++ "/" ++ cfg.Shared ++ "/" ++ name ++ ".html",
        cfg.Root ++ "/" ++ body.Site ++ "/" ++ name ++ ".html"]
    else candidates
  let candidates := candidates ++ [cfg.Root ++ "/" ++ cfg.Shared ++ "/" ++ name ++ ".html"]
  candidates ++ [cfg.Root ++ "/" ++ name ++ ".html"]

def findRenderFile (isFile : String → Bool) (p : defaultParser) (name : String) :
    Except String String :=
  match statLoop isFile (renderCandidates p name) with
  | some f => .ok f
  | none => .error ("render " ++ name ++ " not exist")

/-! ## The template engine and the environment -/

/-- A node of a compiled template: a pipeline that only reads the data bag
(its text, or an execution error), or a call of a parser directive. -/
inductive Node where
  | pipe (f : Map → Except String String)
  | call (c : Call)

abbrev Template := List Node

/-- What the package takes from outside: the file system, `bamgoo.Generate`,
`filepath.Dir`, `path.Base`, `json.Unmarshal` and the compiler of
`html/template` (`compile left right name text`); `Lookup` is
`engine.Lookup` on a clone of the parser's base engine. -/
structure Env where
  isFile : String → Bool
  readFile : String → Option String
  Generate : String → String
  Dir : String → String
  Base : String → String
  Unmarshal : String → Option Map
  compile : String → String → String → String → Except String Template
  Lookup : String → Option Template

/-- The outcome of a pass: `none` when the fuel ran out, otherwise the Go
result `(string, error)` and the parser state afterwards. -/
abbrev Pass := Option (Except String String × defaultParser)

/-- The test `strings.Contains(name, "\n")`. -/
def isInline (name : String) : Bool := name.toList.contains (Char.ofNat 10)

/-! ## Directives -/

/-- The slice `models` of `layoutHelper`. -/
def layoutModels (unmarshal : String → Option Map) : List Any → List Map
  | [] => []
  | Any.map m :: rest => m :: layoutModels unmarshal rest
  | Any.str s :: rest =>
    match unmarshal s with
    | some m => m :: layoutModels unmarshal rest
    | none => layoutModels unmarshal rest
  | _ :: rest => layoutModels unmarshal rest

def layoutHelper (unmarshal : String → Option Map) (name : String) (vals : List Any)
    (p : defaultParser) : String × defaultParser :=
  let models := layoutModels unmarshal vals
  let p := { p with layout := name }
  match models with
  | m :: _ => ("", { p with model := some m })
  | [] => ("", { p with model := some [] })

def titleHelper (args : List String) (p : defaultParser) : String × defaultParser :=
  match args with
  | a :: _ => ("", { p with title := a })
  | [] => (p.title, p)

def authorHelper (args : List String) (p : defaultParser) : String × defaultParser :=
  match args with
  | a :: _ => ("", { p with author := a })
  | [] => (p.author, p)

def keywordsHelper (args : List String) (p : defaultParser) : String × defaultParser :=
  match args with
  | a :: _ => ("", { p with keywords := a })
  | [] => (p.keywords, p)

def descriptionHelper (args : List String) (p : defaultParser) : String × defaultParser :=
  match args with
  | a :: _ => ("", { p with description := a })
  | [] => (p.description, p)

def bodyHelper (p : defaultParser) : String × defaultParser := (p.render, p)

/-- The method `renderHelper`; `renderParse` is the nested pass it calls. -/
def renderHelper (renderParse : String → List Any → defaultParser → Pass) (name : String)
    (vals : List Any) (p : defaultParser) : Option (String × defaultParser) :=
  match renderParse name vals p with
  | none => none
  | some (.error err, p) => some ("render error: " ++ err, p)
  | some (.ok out, p) => some (out, p)

def metaTag (name content : String) (https : List Bool) : String :=
  let isHTTP := match https with
    | b :: _ => b
    | [] => false
  if isHTTP then "<meta http-equiv=\"" ++ name ++ "\" content=\"" ++ content ++ "\" />"
  else "<meta name=\"" ++ name ++ "\" content=\"" ++ content ++ "\" />"

def metaHelper (name content : String) (https : List Bool) (p : defaultParser) :
    String × defaultParser :=
  ("", { p with metas := p.metas ++ [metaTag name content https] })

def metasHelper (p : defaultParser) : String × defaultParser :=
  if p.metas.length = 0 then ("", p) else ("\n".intercalate p.metas, p)

def styleTag (path : String) (args : List String) : String :=
  let media := match args with
    | a :: _ => a
    | [] => ""
  if media = "" then "<link type=\"text/css\" rel=\"stylesheet\" href=\"" ++ path ++ "\" />"
  else "<link type=\"text/css\" rel=\"stylesheet\" href=\"" ++ path ++ "\" media=\"" ++ media ++ "\" />"

def styleHelper (path : String) (args : List String) (p : defaultParser) :
    String × defaultParser :=
  ("", { p with styles := p.styles ++ [styleTag path args] })

def stylesHelper (p : defaultParser) : String × defaultParser :=
  if p.styles.length = 0 then ("", p) else ("\n".intercalate p.styles, p)

def scriptTag (path : String) (args : List String) : String :=
  let t := match args with
    | a :: _ => if a ≠ "" then a else "text/javascript"
    | [] => "text/javascript"
  "<script type=\"" ++ t ++ "\" src=\"" ++ path ++ "\"></script>"

def scriptHelper (path : String) (args : List String) (p : defaultParser) :
    String × defaultParser :=
  ("", { p with scripts := p.scripts ++ [scriptTag path args] })

def scriptsHelper (p : defaultParser) : String × defaultParser :=
  if p.scripts.length = 0 then ("", p) else ("\n".intercalate p.scripts, p)

/-- The bound method a directive call runs, applied to its arguments. -/
def directive (env : Env) (renderParse : String → List Any → defaultParser → Pass)
    (c : Call) (p : defaultParser) : Option (String × defaultParser) :=
  match c with
  | .layout name vals => some (layoutHelper env.Unmarshal name vals p)
  | .title args => some (titleHelper args p)
  | .author args => some (authorHelper args p)
  | .keywords args => some (keywordsHelper args p)
  | .description args => some (descriptionHelper args p)
  | .body => some (bodyHelper p)
  | .render name vals => renderHelper renderParse name vals p
  | .meta name content https => some (metaHelper name content https p)
  | .metas => some (metasHelper p)
  | .style path args => some (styleHelper path args p)
  | .styles => some (stylesHelper p)
  | .script path args => some (scriptHelper path args p)
  | .scripts => some (scriptsHelper p)

/-- The engine invoking a directive: the bound method runs, and the call is
recorded with its output in the ghost field when it returns. -/
def callHelper (env : Env) (renderParse : String → List Any → defaultParser → Pass)
    (c : Call) (p : defaultParser) : Option (String × defaultParser) :=
  match directive env renderParse c p with
  | none => none
  | some (out, p) => some (out, { p with calls := p.calls ++ [(c, out)] })

/-- The call `tpl.Execute(buf, data)`: nodes run left to right, output goes to
`buf`, the first failing pipeline ends the pass with its error. -/
def Execute (env : Env) (renderParse : String → List Any → defaultParser → Pass) :
    Template → String → Map → defaultParser → Pass
  | [], buf, _, p => some (.ok buf, p)
  | .pipe f :: rest, buf, data, p =>
    match f data with
    | .error e => some (.error e, p)
    | .ok s => Execute env renderParse rest (buf ++ s) data p
  | .call c :: rest, buf, data, p =>
    match callHelper env renderParse c p with
    | none => none
    | some (s, p) => Execute env renderParse rest (buf ++ s) data p

/-- The loop `for k, v := range p.body.Data { data[k] = v }` followed by
`data["model"] = model`. -/
def mkData (p : defaultParser) (model : Any) : Map :=
  let data : Map := []
  let data := (GoMap.range p.body.Data).foldl (fun d kv => GoMap.set d kv.1 kv.2) data
  GoMap.set data "model" model

/-! ## Passes -/

/-- The first variadic argument when there is one (`if len(args) > 0`),
otherwise the initial value of the variable. -/
def argOr (init : Any) : List Any → Any
  | a :: _ => a
  | [] => init

/-- The body of `renderParse`; `exec tpl data p` is `tpl.Execute(buf, data)`
followed by `buf.String()`, which re-enters `renderParse` through the
`render` directive. -/
def renderParseBody (env : Env) (exec : Template → Map → defaultParser → Pass)
    (name : String) (args : List Any) (p : defaultParser) : Pass :=
  let cfg := p.connection.inst.Config
  let model := argOr (Any.map []) args
  let run (viewName html : String) : Pass :=
    let tpl := match env.Lookup viewName with
      | some tpl => Except.ok tpl
      | none => env.compile cfg.Left cfg.Right viewName html
    match tpl with
    | .error err => some (.error ("render " ++ viewName ++ " parse error: " ++ err), p)
    | .ok tpl =>
      match exec tpl (mkData p model) p with
      | none => none
      | some (.error err, p) => some (.error ("render " ++ viewName ++ " parse error: " ++ err), p)
      | some (.ok out, p) => some (.ok out, p)
  if isInline name then run (env.Generate "render") name
  else
    match findRenderFile env.isFile p name with
    | .error err => some (.error err, p)
    | .ok filename =>
      match env.readFile filename with
      | none => some (.error ("render " ++ name ++ " read error"), p)
      | some bts => run (env.Base filename) bts

/-- The method `renderParse`, with the depth of nested `render` calls bounded
by the fuel. -/
def renderParse (env : Env) : Nat → String → List Any → defaultParser → Pass
  | 0 => renderParseBody env (fun _ _ _ => none)
  | fuel + 1 =>
    renderParseBody env (fun tpl data p => Execute env (renderParse env fuel) tpl "" data p)

def bodyParse (env : Env) (fuel : Nat) (name : String) (args : List Any) (p : defaultParser) :
    Pass :=
  let cfg := p.connection.inst.Config
  let bodyModel := argOr Any.null args
  let run (viewName html : String) (p : defaultParser) : Pass :=
    match env.compile cfg.Left cfg.Right viewName html with
    | .error err => some (.error ("view " ++ viewName ++ " parse error: " ++ err), p)
    | .ok tpl =>
      match Execute env (renderParse env fuel) tpl "" (mkData p bodyModel) p with
      | none => none
      | some (.error err, p) => some (.error ("view " ++ viewName ++ " parse error: " ++ err), p)
      | some (.ok out, p) => some (.ok out, p)
  if isInline name then run (env.Generate "view") name p
  else
    match findBodyFile env.isFile p name with
    | .error err => some (.error err, p)
    | .ok filename =>
      let p := { p with path := env.Dir filename }
      match env.readFile filename with
      | none => some (.error ("view " ++ name ++ " read error"), p)
      | some bts => run (env.Base filename) bts p

/-- The second half of `layoutParse` (from `viewName := ""` to the end): the
layout pass, entered with `p.render` already holding the body text. -/
def layoutPass (env : Env) (fuel : Nat) (p : defaultParser) : Pass :=
  let cfg := p.connection.inst.Config
  let run (viewName layoutHtml : String) : Pass :=
    match env.compile cfg.Left cfg.Right viewName layoutHtml with
    | .error err => some (.error ("layout " ++ viewName ++ " parse error: " ++ err), p)
    | .ok tpl =>
      match Execute env (renderParse env fuel) tpl "" (mkData p (Any.map (p.model.getD []))) p with
      | none => none
      | some (.error err, p) => some (.error ("layout " ++ viewName ++ " parse error: " ++ err), p)
      | some (.ok out, p) => some (.ok out, p)
  if isInline p.layout then run (env.Generate "layout") p.layout
  else
    match findLayoutFile env.isFile p p.layout with
    | .error err => some (.error err, p)
    | .ok filename =>
      match env.readFile filename with
      | none => some (.error ("layout " ++ p.layout ++ " read error"), p)
      | some bts => run (env.Base filename) bts

def layoutParse (env : Env) (fuel : Nat) (p : defaultParser) : Pass :=
  match bodyParse env fuel p.body.View [Any.map p.body.Model] p with
  | none => none
  | some (.error err, p) => some (.error err, p)
  | some (.ok bodyText, p) =>
    if p.layout = "" then some (.ok bodyText, p)
    else
      let p := match p.model with
        | none => { p with model := some [] }
        | some _ => p
      let p := { p with render := bodyText }
      layoutPass env fuel p

/-- The method `defaultParser.Parse`. -/
def defaultParser.Parse (env : Env) (fuel : Nat) (p : defaultParser) : Pass :=
  layoutParse env fuel p

def newParser (c : defaultConnection) (body : Body) : defaultParser :=
  let helpers : GoMap Callable := []
  let helpers := (GoMap.range body.Helpers).foldl
    (fun helpers kv => GoMap.set helpers kv.1 (Callable.value kv.2)) helpers
  let helpers := GoMap.set helpers "layout" (.method .layoutHelper)
  let helpers := GoMap.set helpers "title" (.method .titleHelper)
  let helpers := GoMap.set helpers "author" (.method .authorHelper)
  let helpers := GoMap.set helpers "keywords" (.method .keywordsHelper)
  let helpers := GoMap.set helpers "description" (.method .descriptionHelper)
  let helpers := GoMap.set helpers "body" (.method .bodyHelper)
  let helpers := GoMap.set helpers "render" (.method .renderHelper)
  let helpers := GoMap.set helpers "meta" (.method .metaHelper)
  let helpers := GoMap.set helpers "metas" (.method .metasHelper)
  let helpers := GoMap.set helpers "style" (.method .styleHelper)
  let helpers := GoMap.set helpers "styles" (.method .stylesHelper)
  let helpers := GoMap.set helpers "script" (.method .scriptHelper)
  let helpers := GoMap.set helpers "scripts" (.method .scriptsHelper)
  { connection := c, body := body, engine := helpers, layout := "", path := "", model := none,
    render := "", title := "", author := "", description := "", keywords := "",
    metas := [], styles := [], scripts := [], calls := [] }

/-- The method `defaultConnection.Parse`. -/
def defaultConnection.Parse (env : Env) (fuel : Nat) (c : defaultConnection) (body : Body) :
    Pass :=
  (newParser c body).Parse env fuel

/-! ## Module lifecycle (`module.go`, `internal.go`) -/

structure Module where
  initialized : Bool
  connected : Bool
  started : Bool
  drivers : GoMap Driver
  helpers : GoMap Helper
  helperActions : Map
  config : Config
  inst : Option Instance

/-- The package variable `module` as its declaration initialises it;
`DEFAULT` is the constant `infra.DEFAULT`. -/
def module (DEFAULT : String) : Module :=
  { initialized := false, connected := false, started := false,
    drivers := [], helpers := [], helperActions := [],
    config := { Driver := DEFAULT, Root := "asset/views", Shared := "shared",
                Left := "\x7b%", Right := "%\x7d", Setting := [] },
    inst := none }

namespace Module

/-- The method `RegisterDriver`; `override` is the value of
`infra.Override()`, an error is the panic. -/
def RegisterDriver (DEFAULT : String) (override : Bool) (m : Module) (name : String)
    (driver : Option Driver) : Except String Module :=
  match driver with
  | none => .error ("Invalid view driver: " ++ name)
  | some driver =>
    let name := if name = "" then DEFAULT else name
    if override then .ok { m with drivers := GoMap.set m.drivers name driver }
    else
      match GoMap.get m.drivers name with
      | none => .ok { m with drivers := GoMap.set m.drivers name driver }
      | some _ => .ok m

def RegisterHelper (override : Bool) (m : Module) (name : String) (helper : Helper) : Module :=
  let aliases : List String := []
  let aliases := if name ≠ "" then aliases ++ [name] else aliases
  let aliases := match helper.Alias with
    | some more => aliases ++ more
    | none => aliases
  { m with helpers := aliases.foldl (fun helpers key =>
      if override then GoMap.set helpers key helper
      else
        match GoMap.get helpers key with
        | none => GoMap.set helpers key helper
        | some _ => helpers) m.helpers }

def RegisterConfig (m : Module) (config : Config) : Module :=
  if m.initialized || m.connected || m.started then m
  else { m with config := config }

def Config (m : Module) (global : Map) : Module :=
  if m.initialized || m.connected || m.started then m
  else
    match GoMap.get global "view" with
    | some (Any.map cfg) =>
      let config := m.config
      let config := match GoMap.get cfg "driver" with
        | some (Any.str v) => if v ≠ "" then { config with Driver := v } else config
        | _ => config
      let config := match GoMap.get cfg "root" with
        | some (Any.str v) => { config with Root := v }
        | _ => config
      let config := match GoMap.get cfg "shared" with
        | some (Any.str v) => { config with Shared := v }
        | _ => config
      let config := match GoMap.get cfg "left" with
        | some (Any.str v) => { config with Left := v }
        | _ => config
      let config := match GoMap.get cfg "right" with
        | some (Any.str v) => { config with Right := v }
        | _ => config
      let config := match GoMap.get cfg "setting" with
        | some (Any.map v) => { config with Setting := v }
        | _ => config
      { m with config := config }
    | _ => m

/-- The test `helper.Action != nil`. -/
def hasAction (helper : Helper) : Bool :=
  match helper.Action with
  | Any.null => false
  | _ => true

def Setup (DEFAULT : String) (m : Module) : Module :=
  if m.initialized then m
  else
    let config := m.config
    let config := if config.Driver = "" then { config with Driver := DEFAULT } else config
    let config := if config.Root = "" then { config with Root := "asset/views" } else config
    let config := if config.Shared = "" then { config with Shared := "shared" } else config
    let config := if config.Left = "" then { config with Left := "\x7b%" } else config
    let config := if config.Right = "" then { config with Right := "%\x7d" } else config
    let helperActions : Map := []
    let helperActions := (GoMap.range m.helpers).foldl (fun helperActions kv =>
      if hasAction kv.2 then GoMap.set helperActions kv.1 kv.2.Action
      else helperActions) helperActions
    { m with config := config, helperActions := helperActions, initialized := true }

/-- The method `Open`; an error is the panic it raises. -/
def Open (m : Module) : Except String Module :=
  if m.connected then .ok m
  else
    match GoMap.get m.drivers m.config.Driver with
    | none => .error ("Invalid view driver: " ++ m.config.Driver)
    | some driver =>
      let inst : Instance := { conn := none, Config := m.config, Setting := m.config.Setting }
      match driver.Connect inst with
      | .error err => .error ("Failed to connect to view: " ++ err)
      | .ok conn =>
        match conn.Open with
        | some err => .error ("Failed to open view: " ++ err)
        | none =>
          let inst := { inst with conn := some conn }
          .ok { m with inst := some inst, connected := true }

def Start (m : Module) : Module :=
  if m.started then m else { m with started := true }

def Stop (m : Module) : Module :=
  if !m.started then m else { m with started := false }

def Close (m : Module) : Module :=
  { m with inst := none, connected := false, initialized := false }

/-- The loop of `Module.Parse` that adds to `body.Helpers` the registered
helper actions which the request does not name (a nil `body.Helpers` reads
like an empty one). -/
def mergeHelpers (m : Module) (body : Body) : Body :=
  { body with Helpers := (GoMap.range m.helperActions).foldl (fun helpers kv =>
      match GoMap.get helpers kv.1 with
      | some _ => helpers
      | none => GoMap.set helpers kv.1 kv.2) body.Helpers }

/-- The method `Module.Parse` (`internal.go`). -/
def Parse (m : Module) (body : Body) : String × Option Error :=
  match m.inst with
  | none => ("", some Error.ErrInvalidConnection)
  | some inst =>
    match inst.conn with
    | none => ("", some Error.ErrInvalidConnection)
    | some conn => conn.Parse (mergeHelpers m body)

end Module

/-- A lifecycle operation on the module, with its arguments; `override` is
what `infra.Override()` returns during the call. -/
inductive Op where
  | Setup
  | Open
  | Start
  | Stop
  | Close
  | Config (global : Map)
  | RegisterConfig (config : Config)
  | RegisterDriver (override : Bool) (name : String) (driver : Option Driver)
  | RegisterHelper (override : Bool) (name : String) (helper : Helper)

/-- One operation; an error is a panic. -/
def Op.apply (DEFAULT : String) (m : Module) : Op → Except String Module
  | .Setup => .ok (m.Setup DEFAULT)
  | .Open => m.Open
  | .Start => .ok m.Start
  | .Stop => .ok m.Stop
  | .Close => .ok m.Close
  | .Config global => .ok (m.Config global)
  | .RegisterConfig config => .ok (m.RegisterConfig config)
  | .RegisterDriver override name driver => m.RegisterDriver DEFAULT override name driver
  | .RegisterHelper override name helper => .ok (m.RegisterHelper override name helper)

/-- A sequence of operations from state `m`; the first panic ends it. -/
def runOps (DEFAULT : String) (m : Module) : List Op → Except String Module
  | [] => .ok m
  | op :: rest =>
    match op.apply DEFAULT m with
    | .error err => .error err
    | .ok m => runOps DEFAULT m rest

/-! ## Sample inputs -/

def demoConfig : Config :=
  { Driver := "default", Root := "r", Shared := "shared", Left := "\x7b%", Right := "%\x7d",
    Setting := [] }

def demoConnection : defaultConnection :=
  { inst := { conn := none, Config := demoConfig, Setting := [] } }

/-- A request for the view `home` in language `en` on the given site. -/
def demoBody (site : String) : Body :=
  { View := "home", Site := site, Language := "en", Data := [], Model := [], Helpers := [] }

/-- A file system in which exactly the listed paths are regular files. -/
def filesAt (paths : List String) : String → Bool := fun f => paths.contains f

/-- The directory part of a slash-separated path. -/
def demoDir (f : String) : String :=
  String.mk ((f.toList.reverse.dropWhile (fun ch => ch != '/')).drop 1).reverse

/-- The last element of a slash-separated path. -/
def demoBase (f : String) : String :=
  String.mk (f.toList.reverse.takeWhile (fun ch => ch != '/')).reverse

/-- An environment given by its files (path and text) and by the compiled
form of each template text. -/
def demoEnv (files : List (String × String)) (sources : List (String × Template)) : Env :=
  { isFile := fun f => (GoMap.get files f).isSome
    readFile := fun f => GoMap.get files f
    Generate := fun kind => kind ++ "-1"
    Dir := demoDir
    Base := demoBase
    Unmarshal := fun _ => none
    compile := fun _ _ _ text =>
      match GoMap.get sources text with
      | some tpl => .ok tpl
      | none => .error "unexpected text"
    Lookup := fun _ => none }

/-- An inline body that calls `layout` with the empty name and prints `hi`. -/
def emptyLayoutView : String := "\x7b% layout \"\" %\x7dhi\n"

def emptyLayoutEnv : Env :=
  demoEnv [] [(emptyLayoutView, [Node.call (Call.layout "" []), Node.pipe (fun _ => .ok "hi\n")])]

def emptyLayoutBody : Body :=
  { View := emptyLayoutView, Site := "", Language := "en", Data := [], Model := [], Helpers := [] }

/-- The parser state after the body pass of `emptyLayoutBody`. -/
def emptyLayoutAfter : defaultParser :=
  { newParser demoConnection emptyLayoutBody with
    layout := "", model := some [], calls := [(Call.layout "" [], "")] }

/-- An inline body that selects the layout `main` and prints `Hi`. -/
def mainView : String := "\x7b% layout \"main\" %\x7dHi\n"

/-- The text of the layout file `r/en/main.html`. -/
def mainLayout : String := "<html>\x7b% body %\x7d</html>"

def mainEnv : Env :=
  demoEnv [("r/en/main.html", mainLayout)]
    [(mainView, [Node.call (Call.layout "main" []), Node.pipe (fun _ => .ok "Hi\n")]),
     (mainLayout, [Node.pipe (fun _ => .ok "<html>"), Node.call Call.body,
                   Node.pipe (fun _ => .ok "</html>")])]

def mainBody : Body :=
  { View := mainView, Site := "", Language := "en", Data := [], Model := [], Helpers := [] }

/-- The parser state after the body pass of `mainBody`. -/
def mainAfter : defaultParser :=
  { newParser demoConnection mainBody with
    layout := "main", model := some [], calls := [(Call.layout "main" [], "")] }

/-- A template that sets the title twice, the author once, and prints the
title. -/
def scalarTemplate : Template :=
  [Node.call (Call.title ["a"]), Node.call (Call.author ["x"]), Node.call (Call.title ["b"]),
   Node.call (Call.title [])]

/-- The parser state after `scalarTemplate` ran on a fresh parser. -/
def scalarAfter : defaultParser :=
  { newParser demoConnection (demoBody "") with
    title := "b", author := "x",
    calls := [(Call.title ["a"], ""), (Call.author ["x"], ""), (Call.title ["b"], ""),
              (Call.title [], "b")] }

/-- A template that appends the same meta tag twice, with a style link in
between. -/
def tagTemplate : Template :=
  [Node.call (Call.meta "a" "1" []), Node.call (Call.style "s.css" []),
   Node.call (Call.meta "a" "1" [])]

/-- The parser state after `tagTemplate` ran on a fresh parser. -/
def tagAfter : defaultParser :=
  { newParser demoConnection (demoBody "") with
    metas := ["<meta name=\"a\" content=\"1\" />", "<meta name=\"a\" content=\"1\" />"],
    styles := ["<link type=\"text/css\" rel=\"stylesheet\" href=\"s.css\" />"],
    calls := [(Call.meta "a" "1" [], ""), (Call.style "s.css" [], ""),
              (Call.meta "a" "1" [], "")] }

/-- The text of the body file `r/en/home/index.html`. -/
def homePage : String := "\x7b% layout \"main\" %\x7dHome"

/-- A site whose view `home` is a folder with its own `main.html`. -/
def homeEnv : Env :=
  demoEnv [("r/en/home/index.html", homePage), ("r/en/home/main.html", mainLayout)]
    [(homePage, [Node.call (Call.layout "main" []), Node.pipe (fun _ => .ok "Home")]),
     (mainLayout, [Node.pipe (fun _ => .ok "<html>"), Node.call Call.body,
                   Node.pipe (fun _ => .ok "</html>")])]

/-- The parser state after the body pass of the view `home` in `homeEnv`. -/
def homeAfter : defaultParser :=
  { newParser demoConnection (demoBody "") with
    path := "r/en/home", layout := "main", model := some [],
    calls := [(Call.layout "main" [], "")] }

/-- A connection whose `Parse` returns the name of the requested view. -/
def echoConnection : Connection :=
  { Open := none, Close := none, Parse := fun body => (body.View, none) }

def echoDriver : Driver := { Connect := fun _ => .ok echoConnection }

/-- The module after the default driver was registered and `Setup` and `Open`
ran. -/
def openModule : Module :=
  { initialized := true, connected := true, started := false,
    drivers := [("default", echoDriver)], helpers := [], helperActions := [],
    config := (module "default").config,
    inst := some { conn := some echoConnection, Config := (module "default").config,
                   Setting := [] } }

/-- The module after a further `Close`. -/
def closedModule : Module :=
  { openModule with initialized := false, connected := false, inst := none }

/-! ## Reading the call record -/

/-- The four last-write-wins scalars of the parser. -/
inductive Scalar where
  | title | author | keywords | description

namespace Scalar

/-- The field of the parser that holds the scalar. -/
def field : Scalar → defaultParser → String
  | .title, p => p.title
  | .author, p => p.author
  | .keywords, p => p.keywords
  | .description, p => p.description

/-- The helper method bound to the scalar's directive. -/
def helper : Scalar → List String → defaultParser → String × defaultParser
  | .title => titleHelper
  | .author => authorHelper
  | .keywords => keywordsHelper
  | .description => descriptionHelper

/-- The call of the scalar's directive with the given arguments. -/
def call : Scalar → List String → Call
  | .title, args => .title args
  | .author, args => .author args
  | .keywords, args => .keywords args
  | .description, args => .description args

/-- The value a call writes to the scalar: the first argument of a call of
its directive with at least one argument. -/
def written : Scalar → Call → Option String
  | .title, .title (a :: _) => some a
  | .author, .author (a :: _) => some a
  | .keywords, .keywords (a :: _) => some a
  | .description, .description (a :: _) => some a
  | _, _ => none

end Scalar

/-- The three tag accumulators of the parser. -/
inductive Acc where
  | metas | styles | scripts

namespace Acc

/-- The slice of the parser that holds the accumulated tags. -/
def field : Acc → defaultParser → List String
  | .metas, p => p.metas
  | .styles, p => p.styles
  | .scripts, p => p.scripts

/-- The getter method of the accumulator. -/
def getter : Acc → defaultParser → String × defaultParser
  | .metas => metasHelper
  | .styles => stylesHelper
  | .scripts => scriptsHelper

/-- The call of the accumulator's getter directive. -/
def getCall : Acc → Call
  | .metas => .metas
  | .styles => .styles
  | .scripts => .scripts

/-- The tag a call appends to the accumulator, if it is a call of its
appending directive. -/
def appended : Acc → Call → Option String
  | .metas, .meta name content https => some (metaTag name content https)
  | .styles, .style path args => some (styleTag path args)
  | .scripts, .script path args => some (scriptTag path args)
  | _, _ => none

end Acc

/-- The layout name a call records: the first argument of a `layout` call. -/
def layoutNamed : Call → Option String
  | .layout name _ => some name
  | _ => none

/-- The value of a last-write-wins field after the recorded calls `cs`, from
the value `s` before them. -/
def lastWrite (sel : Call → Option String) (cs : List (Call × String)) (s : String) : String :=
  cs.foldl (fun s e => (sel e.1).getD s) s

/-- The tags the recorded calls `cs` append, one per appending call, in order. -/
def tagsOf (sel : Call → Option String) (cs : List (Call × String)) : List String :=
  cs.filterMap (fun e => sel e.1)

/-- What a stretch of execution that made the calls `cs` does to the parser
state: `p` before, `q` after. -/
structure Trace (p q : defaultParser) (cs : List (Call × String)) : Prop where
  calls : q.calls = p.calls ++ cs
  connection : q.connection = p.connection
  body : q.body = p.body
  path : q.path = p.path
  render : q.render = p.render
  layout : q.layout = lastWrite layoutNamed cs p.layout
  scalar : ∀ s : Scalar, s.field q = lastWrite s.written cs (s.field p)
  acc : ∀ a : Acc, a.field q = a.field p ++ tagsOf a.appended cs
  bodyOut : ∀ out, (Call.body, out) ∈ cs → out = p.render

/-! ## Reading the helper table and the module state -/

/-- The names `newParser` binds to the methods of the parser, in the order of
its assignments. -/
def fixedDirectives : List (String × Method) :=
  [("layout", .layoutHelper), ("title", .titleHelper), ("author", .authorHelper),
   ("keywords", .keywordsHelper), ("description", .descriptionHelper), ("body", .bodyHelper),
   ("render", .renderHelper), ("meta", .metaHelper), ("metas", .metasHelper),
   ("style", .styleHelper), ("styles", .stylesHelper), ("script", .scriptHelper),
   ("scripts", .scriptsHelper)]

/-- The connection `Module.Parse` tests for: `m.instance.conn` when both
pointers are non-nil. -/
def Module.connection (m : Module) : Option Connection :=
  m.inst.bind (fun inst => inst.conn)

/-- The link between the flag `connected` and the instance pointer. -/
def Module.Linked (m : Module) : Prop :=
  m.connection.isSome = m.connected

/-- Two module states with the same flag `connected` and the same instance. -/
def Module.SameLink (m n : Module) : Prop :=
  n.connected = m.connected ∧ n.inst = m.inst

/-- A pass function leaves a trace when every run of it that returns does. -/
def Traced {α : Type} (f : defaultParser → Option (α × defaultParser)) : Prop :=
  ∀ p r q, f p = some (r, q) → ∃ cs, Trace p q cs

/-! ## Resolution: first existing candidate -/

theorem statLoop_eq_none (isFile : String → Bool) (l : List String) :
    statLoop isFile l = none ↔ ∀ c ∈ l, isFile c = false := by
  induction l with
  | nil => simp [statLoop]
  | cons a t ih =>
    by_cases h : isFile a = true
    · simp [statLoop, h]
    · simp [statLoop, h, ih]

theorem statLoop_eq_some (isFile : String → Bool) (l : List String) (f : String) :
    statLoop isFile l = some f ↔
      ∃ pre post, l = pre ++ f :: post ∧ isFile f = true ∧ ∀ c ∈ pre, isFile c = false := by
  induction l with
  | nil => simp [statLoop]
  | cons a t ih =>
    by_cases h : isFile a = true
    · simp only [statLoop, h, if_true, Option.some.injEq]
      constructor
      · intro e
        subst e
        exact ⟨[], t, rfl, h, by simp⟩
      · rintro ⟨pre, post, hl, hf, hpre⟩
        cases pre with
        | nil =>
          simp only [List.nil_append, List.cons.injEq] at hl
          exact hl.1
        | cons b pre =>
          simp only [List.cons_append, List.cons.injEq] at hl
          have := hpre b (by simp)
          rw [← hl.1] at this
          simp [h] at this
    · simp only [statLoop, h, Bool.false_eq_true, if_false, ih]
      constructor
      · rintro ⟨pre, post, hl, hf, hpre⟩
        refine ⟨a :: pre, post, by simp [hl], hf, ?_⟩
        intro c hc
        rcases List.mem_cons.mp hc with rfl | hc
        · simpa using h
        · exact hpre c hc
      · rintro ⟨pre, post, hl, hf, hpre⟩
        cases pre with
        | nil =>
          simp only [List.nil_append, List.cons.injEq] at hl
          rw [hl.1] at h
          exact absurd hf h
        | cons b pre =>
          simp only [List.cons_append, List.cons.injEq] at hl
          exact ⟨pre, post, hl.2, hf, fun c hc => hpre c (by simp [hc])⟩

/-- The shape shared by the three `find…File` functions: the loop result, or
the error `msg` when the loop falls through. -/
theorem find_shape (isFile : String → Bool) (l : List String) (msg : String) :
    (∀ f, (match statLoop isFile l with
            | some f => Except.ok f
            | none => (Except.error msg : Except String String)) = .ok f ↔
        ∃ pre post, l = pre ++ f :: post ∧ isFile f = true ∧ ∀ c ∈ pre, isFile c = false) ∧
    (∀ e, (match statLoop isFile l with
            | some f => Except.ok f
            | none => (Except.error msg : Except String String)) = .error e ↔
        (e = msg ∧ ∀ c ∈ l, isFile c = false)) := by
  constructor
  · intro f
    rw [← statLoop_eq_some]
    cases statLoop isFile l <;> simp
  · intro e
    rw [← statLoop_eq_none]
    cases statLoop isFile l <;> simp [eq_comm]

/-- C1. Each of `findLayoutFile`, `findBodyFile` and `findRenderFile`, in
every parser state and for every file predicate, returns a path `f` exactly
when `f` is the earliest entry of its candidate list that is an existing
non-directory file (every entry before it fails the test), and returns an
error exactly when no candidate passes the test; the error is then
`layout <name> not exist`, `view <name> not exist` (the body kind) or
`render <name> not exist`. -/
theorem find_file_first_existing (isFile : String → Bool) (p : defaultParser) (name : String) :
    ((∀ f, findLayoutFile isFile p name = .ok f ↔
        ∃ pre post, layoutCandidates p name = pre ++ f :: post ∧ isFile f = true ∧
          ∀ c ∈ pre, isFile c = false) ∧
     (∀ e, findLayoutFile isFile p name = .error e ↔
        (e = "layout " ++ name ++ " not exist" ∧
          ∀ c ∈ layoutCandidates p name, isFile c = false))) ∧
    ((∀ f, findBodyFile isFile p name = .ok f ↔
        ∃ pre post, bodyCandidates p name = pre ++ f :: post ∧ isFile f = true ∧
          ∀ c ∈ pre, isFile c = false) ∧
     (∀ e, findBodyFile isFile p name = .error e ↔
        (e = "view " ++ name ++ " not exist" ∧
          ∀ c ∈ bodyCandidates p name, isFile c = false))) ∧
    ((∀ f, findRenderFile isFile p name = .ok f ↔
        ∃ pre post, renderCandidates p name = pre ++ f :: post ∧ isFile f = true ∧
          ∀ c ∈ pre, isFile c = false) ∧
     (∀ e, findRenderFile isFile p name = .error e ↔
        (e = "render " ++ name ++ " not exist" ∧
          ∀ c ∈ renderCandidates p name, isFile c = false))) :=
  ⟨find_shape isFile _ _, find_shape isFile _ _, find_shape isFile _ _⟩

/-- C7 (as stated) fails for the body kind: with only `r/shared/x.html` and
`r/x.html` present, `findBodyFile` selects the root-scoped `r/x.html`, which
stands before both shared-scoped candidates in its list. -/
theorem body_root_scoped_not_last :
    bodyCandidates (newParser demoConnection (demoBody "")) "x" =
      ["r/en/x.html", "r/en/x/index.html", "r/en/shared/x.html", "r/en/shared/x/index.html",
       "r/x.html", "r/x/index.html", "r/shared/x.html", "r/shared/x/index.html"] ∧
    filesAt ["r/shared/x.html", "r/x.html"] "r/shared/x.html" = true ∧
    filesAt ["r/shared/x.html", "r/x.html"] "r/x.html" = true ∧
    findBodyFile (filesAt ["r/shared/x.html", "r/x.html"])
      (newParser demoConnection (demoBody "")) "x" = .ok "r/x.html" ∧
    findBodyFile (filesAt ["r/shared/x.html", "r/x.html"])
      (newParser demoConnection (demoBody "")) "x" ≠ .ok "r/shared/x.html" := by
  refine ⟨by decide, by decide, by decide, rfl, ?_⟩
  intro h
  have h2 : (Except.ok "r/x.html" : Except String String) = .ok "r/shared/x.html" := h
  injection h2 with h3
  exact absurd h3 (by decide)

theorem append_two (X : List String) (a b : String) : X ++ [a] ++ [b] = X ++ [a, b] := by
  simp

theorem append_four (X : List String) (a b c d : String) :
    X ++ [a] ++ [b] ++ [c] ++ [d] = X ++ [a, b, c, d] := by
  simp

theorem dropLast_two (X : List String) (a b : String) :
    (X ++ [a, b]).dropLast.dropLast = X := by
  simp [List.dropLast_append_cons]

theorem dropLast_four (X : List String) (a b c d : String) :
    (X ++ [a, b, c, d]).dropLast.dropLast.dropLast.dropLast = X := by
  simp [List.dropLast_append_cons]

/-- C7 (amended). In layout and render resolution the list ends with the
shared-scoped `root/shared/name.html` followed by the root-scoped
`root/name.html`, so when the shared-scoped file exists and no earlier
candidate does, the shared-scoped file is selected (whether or not
`root/name.html` exists).  In body resolution the list ends with
`root/name.html`, `root/name/index.html`, `root/shared/name.html`,
`root/shared/name/index.html`: the root-scoped candidates come before the
shared-scoped ones, and when `root/name.html` exists and no earlier
candidate does, `root/name.html` is selected (whether or not
`root/shared/name.html` exists). -/
theorem root_and_shared_fallback_order (isFile : String → Bool) (p : defaultParser)
    (name : String) :
    (layoutCandidates p name = (layoutCandidates p name).dropLast.dropLast ++
        [p.connection.inst.Config.Root ++ "/" ++ p.connection.inst.Config.Shared ++ "/" ++ name
           ++ ".html",
         p.connection.inst.Config.Root ++ "/" ++ name ++ ".html"] ∧
      (isFile (p.connection.inst.Config.Root ++ "/" ++ p.connection.inst.Config.Shared ++ "/"
            ++ name ++ ".html") = true →
        (∀ c ∈ (layoutCandidates p name).dropLast.dropLast, isFile c = false) →
        findLayoutFile isFile p name = .ok (p.connection.inst.Config.Root ++ "/" ++
          p.connection.inst.Config.Shared ++ "/" ++ name ++ ".html"))) ∧
    (renderCandidates p name = (renderCandidates p name).dropLast.dropLast ++
        [p.connection.inst.Config.Root ++ "/" ++ p.connection.inst.Config.Shared ++ "/" ++ name
           ++ ".html",
         p.connection.inst.Config.Root ++ "/" ++ name ++ ".html"] ∧
      (isFile (p.connection.inst.Config.Root ++ "/" ++ p.connection.inst.Config.Shared ++ "/"
            ++ name ++ ".html") = true →
        (∀ c ∈ (renderCandidates p name).dropLast.dropLast, isFile c = false) →
        findRenderFile isFile p name = .ok (p.connection.inst.Config.Root ++ "/" ++
          p.connection.inst.Config.Shared ++ "/" ++ name ++ ".html"))) ∧
    (bodyCandidates p name = (bodyCandidates p name).dropLast.dropLast.dropLast.dropLast ++
        [p.connection.inst.Config.Root ++ "/" ++ name ++ ".html",
         p.connection.inst.Config.Root ++ "/" ++ name ++ "/index.html",
         p.connection.inst.Config.Root ++ "/" ++ p.connection.inst.Config.Shared ++ "/" ++ name
           ++ ".html",
         p.connection.inst.Config.Root ++ "/" ++ p.connection.inst.Config.Shared ++ "/" ++ name
           ++ "/index.html"] ∧
      (isFile (p.connection.inst.Config.Root ++ "/" ++ name ++ ".html") = true →
        (∀ c ∈ (bodyCandidates p name).dropLast.dropLast.dropLast.dropLast, isFile c = false) →
        findBodyFile isFile p name = .ok (p.connection.inst.Config.Root ++ "/" ++ name
          ++ ".html"))) := by
  obtain ⟨X, hX⟩ : ∃ X, layoutCandidates p name = X ++ [_, _] := ⟨_, append_two _ _ _⟩
  obtain ⟨Y, hY⟩ : ∃ Y, renderCandidates p name = Y ++ [_, _] := ⟨_, append_two _ _ _⟩
  obtain ⟨Z, hZ⟩ : ∃ Z, bodyCandidates p name = Z ++ [_, _, _, _] :=
    ⟨_, append_four _ _ _ _ _⟩
  have dX : (layoutCandidates p name).dropLast.dropLast = X := by
    rw [hX]
    exact dropLast_two _ _ _
  have dY : (renderCandidates p name).dropLast.dropLast = Y := by
    rw [hY]
    exact dropLast_two _ _ _
  have dZ : (bodyCandidates p name).dropLast.dropLast.dropLast.dropLast = Z := by
    rw [hZ]
    exact dropLast_four _ _ _ _ _
  rw [dX, dY, dZ]
  refine ⟨⟨hX, ?_⟩, ⟨hY, ?_⟩, ⟨hZ, ?_⟩⟩
  · intro hs hpre
    have h := (statLoop_eq_some isFile (layoutCandidates p name) _).mpr ⟨_, _, hX, hs, hpre⟩
    simp only [findLayoutFile, h]
  · intro hs hpre
    have h := (statLoop_eq_some isFile (renderCandidates p name) _).mpr ⟨_, _, hY, hs, hpre⟩
    simp only [findRenderFile, h]
  · intro hr hpre
    have h := (statLoop_eq_some isFile (bodyCandidates p name) _).mpr ⟨_, _, hZ, hr, hpre⟩
    simp only [findBodyFile, h]

/-- Runs of `root_and_shared_fallback_order`.  With `r/shared/x.html` and
`r/x.html` as the only files, layout and render pick the shared-scoped file
and body picks the root-scoped one; with `r/shared/x.html` alone, layout and
render still pick it; with `r/x.html` alone, body still picks it. -/
theorem root_and_shared_fallback_order_witness :
    (findLayoutFile (filesAt ["r/shared/x.html", "r/x.html"])
        (newParser demoConnection (demoBody "")) "x" = .ok "r/shared/x.html" ∧
      findRenderFile (filesAt ["r/shared/x.html", "r/x.html"])
        (newParser demoConnection (demoBody "")) "x" = .ok "r/shared/x.html" ∧
      findBodyFile (filesAt ["r/shared/x.html", "r/x.html"])
        (newParser demoConnection (demoBody "")) "x" = .ok "r/x.html") ∧
    (findLayoutFile (filesAt ["r/shared/x.html"])
        (newParser demoConnection (demoBody "")) "x" = .ok "r/shared/x.html" ∧
      findRenderFile (filesAt ["r/shared/x.html"])
        (newParser demoConnection (demoBody "")) "x" = .ok "r/shared/x.html") ∧
    findBodyFile (filesAt ["r/x.html"])
      (newParser demoConnection (demoBody "")) "x" = .ok "r/x.html" := by
  have h := root_and_shared_fallback_order (filesAt ["r/shared/x.html", "r/x.html"])
    (newParser demoConnection (demoBody "")) "x"
  have hs := root_and_shared_fallback_order (filesAt ["r/shared/x.html"])
    (newParser demoConnection (demoBody "")) "x"
  have hr := root_and_shared_fallback_order (filesAt ["r/x.html"])
    (newParser demoConnection (demoBody "")) "x"
  exact ⟨⟨h.1.2 (by decide) (by decide), h.2.1.2 (by decide) (by decide),
      h.2.2.2 (by decide) (by decide)⟩,
    ⟨hs.1.2 (by decide) (by decide), hs.2.1.2 (by decide) (by decide)⟩,
    hr.2.2.2 (by decide) (by decide)⟩

/-- C8. With site `s` and language `en`, `findLayoutFile` lists the
language-scoped `r/en/main.html` before the site+language-scoped
`r/s/en/main.html` (and lists it a second time after it), so when both files
exist the language-scoped one is returned. -/
theorem layout_language_scoped_first :
    layoutCandidates (newParser demoConnection (demoBody "s")) "main" =
      ["r/en/main.html", "r/s/en/main.html", "r/s/en/shared/main.html", "r/en/main.html",
       "r/s/shared/main.html", "r/s/main.html", "r/shared/main.html", "r/main.html"] ∧
    findLayoutFile (filesAt ["r/s/en/main.html", "r/en/main.html"])
      (newParser demoConnection (demoBody "s")) "main" = .ok "r/en/main.html" ∧
    findBodyFile (filesAt ["r/s/en/main.html", "r/en/main.html"])
      (newParser demoConnection (demoBody "s")) "main" = .ok "r/s/en/main.html" := by
  refine ⟨by decide, rfl, rfl⟩

/-! ## Execution traces -/

theorem lastWrite_append (sel : Call → Option String) (a b : List (Call × String)) (s : String) :
    lastWrite sel (a ++ b) s = lastWrite sel b (lastWrite sel a s) := by
  simp [lastWrite, List.foldl_append]

theorem lastWrite_none (sel : Call → Option String) (cs : List (Call × String)) (s : String)
    (h : ∀ e ∈ cs, sel e.1 = none) : lastWrite sel cs s = s := by
  induction cs generalizing s with
  | nil => rfl
  | cons e t ih =>
    have he := h e (by simp)
    have ht : ∀ e ∈ t, sel e.1 = none := fun e' he' => h e' (by simp [he'])
    have := ih s ht
    simpa [lastWrite, he] using this

theorem lastWrite_last (sel : Call → Option String) (pre post : List (Call × String))
    (e : Call × String) (v s : String) (he : sel e.1 = some v)
    (h : ∀ e ∈ post, sel e.1 = none) : lastWrite sel (pre ++ e :: post) s = v := by
  rw [lastWrite_append]
  have : lastWrite sel (e :: post) (lastWrite sel pre s) = lastWrite sel post v := by
    simp [lastWrite, he]
  rw [this, lastWrite_none sel post v h]

theorem tagsOf_append (sel : Call → Option String) (a b : List (Call × String)) :
    tagsOf sel (a ++ b) = tagsOf sel a ++ tagsOf sel b := by
  simp [tagsOf, List.filterMap_append]

theorem tagsOf_none (sel : Call → Option String) (cs : List (Call × String))
    (h : ∀ e ∈ cs, sel e.1 = none) : tagsOf sel cs = [] := by
  induction cs with
  | nil => rfl
  | cons e t ih =>
    have he := h e (by simp)
    have ht : ∀ e ∈ t, sel e.1 = none := fun e' he' => h e' (by simp [he'])
    simp [tagsOf, List.filterMap_cons, he]
    intro a b hab
    exact h (a, b) (by simp [hab])

theorem Trace.refl (p : defaultParser) : Trace p p [] := by
  constructor <;> simp [lastWrite, tagsOf]

theorem Trace.trans {p q r : defaultParser} {a b : List (Call × String)}
    (h1 : Trace p q a) (h2 : Trace q r b) : Trace p r (a ++ b) := by
  constructor
  · rw [h2.calls, h1.calls, List.append_assoc]
  · rw [h2.connection, h1.connection]
  · rw [h2.body, h1.body]
  · rw [h2.path, h1.path]
  · rw [h2.render, h1.render]
  · rw [h2.layout, h1.layout, lastWrite_append]
  · intro s
    rw [h2.scalar, h1.scalar, lastWrite_append]
  · intro x
    rw [h2.acc, h1.acc, tagsOf_append, List.append_assoc]
  · intro out hout
    rcases List.mem_append.mp hout with h | h
    · exact h1.bodyOut out h
    · rw [← h1.render]
      exact h2.bodyOut out h

theorem step_trace (p q : defaultParser) (c : Call) (out : String)
    (h1 : q.calls = p.calls) (h2 : q.connection = p.connection) (h3 : q.body = p.body)
    (h4 : q.path = p.path) (h5 : q.render = p.render)
    (h6 : q.layout = (layoutNamed c).getD p.layout)
    (h7 : ∀ s : Scalar, s.field q = (s.written c).getD (s.field p))
    (h8 : ∀ a : Acc, a.field q = a.field p ++ (a.appended c).toList)
    (h9 : c = Call.body → out = p.render) :
    Trace p { q with calls := q.calls ++ [(c, out)] } [(c, out)] := by
  constructor
  · simp [h1]
  · exact h2
  · exact h3
  · exact h4
  · exact h5
  · simpa [lastWrite] using h6
  · intro s
    have := h7 s
    cases s <;> simpa [lastWrite, Scalar.field] using this
  · intro a
    have := h8 a
    have e : tagsOf a.appended [(c, out)] = (a.appended c).toList := by
      cases hc : a.appended c <;> simp [tagsOf, hc]
    rw [e, ← this]
    cases a <;> rfl
  · intro o ho
    simp only [List.mem_singleton, Prod.mk.injEq] at ho
    rw [ho.2]
    exact h9 ho.1.symm

theorem callHelper_some (env : Env) (rp : String → List Any → defaultParser → Pass)
    (c : Call) (p q : defaultParser) (out : String)
    (h : callHelper env rp c p = some (out, q)) :
    ∃ q1, directive env rp c p = some (out, q1) ∧
      q = { q1 with calls := q1.calls ++ [(c, out)] } := by
  unfold callHelper at h
  cases hd : directive env rp c p with
  | none => simp [hd] at h
  | some x =>
    obtain ⟨o, q1⟩ := x
    simp only [hd, Option.some.injEq, Prod.mk.injEq] at h
    obtain ⟨rfl, rfl⟩ := h
    exact ⟨q1, rfl, rfl⟩

theorem callHelper_trace (env : Env) (rp : String → List Any → defaultParser → Pass)
    (hrp : ∀ name vals, Traced (rp name vals)) (c : Call) : Traced (callHelper env rp c) := by
  intro p out q h
  obtain ⟨q1, hd, rfl⟩ := callHelper_some env rp c p q out h
  cases c with
  | render name vals =>
    simp only [directive, renderHelper] at hd
    cases hr : rp name vals p with
    | none => simp [hr] at hd
    | some x =>
      obtain ⟨r, p1⟩ := x
      obtain ⟨cs, ht⟩ := hrp name vals p r p1 hr
      refine ⟨cs ++ [(Call.render name vals, out)], Trace.trans ht ?_⟩
      have hq : q1 = p1 := by
        cases r <;> simp [hr] at hd <;> exact hd.2.symm
      subst hq
      apply step_trace <;> first
        | rfl
        | (intro s; cases s <;> first | rfl | simp [Acc.field, Acc.appended])
  | layout name vals =>
    simp only [directive, layoutHelper] at hd
    refine ⟨[(Call.layout name vals, out)], ?_⟩
    cases hm : layoutModels env.Unmarshal vals <;> simp [hm] at hd <;> obtain ⟨-, rfl⟩ := hd <;>
      apply step_trace <;> first
        | rfl
        | (intro s; cases s <;> first | rfl | simp [Acc.field, Acc.appended])
  | title args =>
    simp only [directive, titleHelper] at hd
    refine ⟨[(Call.title args, out)], ?_⟩
    cases args <;> simp at hd <;> obtain ⟨-, rfl⟩ := hd <;>
      apply step_trace <;> first
        | rfl
        | (intro s; cases s <;> first | rfl | simp [Acc.field, Acc.appended])
  | author args =>
    simp only [directive, authorHelper] at hd
    refine ⟨[(Call.author args, out)], ?_⟩
    cases args <;> simp at hd <;> obtain ⟨-, rfl⟩ := hd <;>
      apply step_trace <;> first
        | rfl
        | (intro s; cases s <;> first | rfl | simp [Acc.field, Acc.appended])
  | keywords args =>
    simp only [directive, keywordsHelper] at hd
    refine ⟨[(Call.keywords args, out)], ?_⟩
    cases args <;> simp at hd <;> obtain ⟨-, rfl⟩ := hd <;>
      apply step_trace <;> first
        | rfl
        | (intro s; cases s <;> first | rfl | simp [Acc.field, Acc.appended])
  | description args =>
    simp only [directive, descriptionHelper] at hd
    refine ⟨[(Call.description args, out)], ?_⟩
    cases args <;> simp at hd <;> obtain ⟨-, rfl⟩ := hd <;>
      apply step_trace <;> first
        | rfl
        | (intro s; cases s <;> first | rfl | simp [Acc.field, Acc.appended])
  | body =>
    simp only [directive, bodyHelper, Option.some.injEq, Prod.mk.injEq] at hd
    obtain ⟨rfl, rfl⟩ := hd
    refine ⟨[(Call.body, p.render)], ?_⟩
    apply step_trace <;> first
        | rfl
        | (intro s; cases s <;> first | rfl | simp [Acc.field, Acc.appended])
  | meta name content https =>
    simp only [directive, metaHelper, Option.some.injEq, Prod.mk.injEq] at hd
    obtain ⟨-, rfl⟩ := hd
    refine ⟨[(Call.meta name content https, out)], ?_⟩
    apply step_trace <;> first
        | rfl
        | (intro s; cases s <;> first | rfl | simp [Acc.field, Acc.appended])
  | metas =>
    simp only [directive, metasHelper] at hd
    refine ⟨[(Call.metas, out)], ?_⟩
    split at hd <;> simp at hd <;> obtain ⟨-, rfl⟩ := hd <;>
      apply step_trace <;>
      first
        | rfl
        | (intro s; cases s <;> first | rfl | simp [Acc.field, Acc.appended])
  | style path args =>
    simp only [directive, styleHelper, Option.some.injEq, Prod.mk.injEq] at hd
    obtain ⟨-, rfl⟩ := hd
    refine ⟨[(Call.style path args, out)], ?_⟩
    apply step_trace <;> first
        | rfl
        | (intro s; cases s <;> first | rfl | simp [Acc.field, Acc.appended])
  | styles =>
    simp only [directive, stylesHelper] at hd
    refine ⟨[(Call.styles, out)], ?_⟩
    split at hd <;> simp at hd <;> obtain ⟨-, rfl⟩ := hd <;>
      apply step_trace <;>
      first
        | rfl
        | (intro s; cases s <;> first | rfl | simp [Acc.field, Acc.appended])
  | script path args =>
    simp only [directive, scriptHelper, Option.some.injEq, Prod.mk.injEq] at hd
    obtain ⟨-, rfl⟩ := hd
    refine ⟨[(Call.script path args, out)], ?_⟩
    apply step_trace <;> first
        | rfl
        | (intro s; cases s <;> first | rfl | simp [Acc.field, Acc.appended])
  | scripts =>
    simp only [directive, scriptsHelper] at hd
    refine ⟨[(Call.scripts, out)], ?_⟩
    split at hd <;> simp at hd <;> obtain ⟨-, rfl⟩ := hd <;>
      apply step_trace <;>
      first
        | rfl
        | (intro s; cases s <;> first | rfl | simp [Acc.field, Acc.appended])

theorem Execute_trace (env : Env) (rp : String → List Any → defaultParser → Pass)
    (hrp : ∀ name vals, Traced (rp name vals)) (tpl : Template) (buf : String) (data : Map) :
    Traced (Execute env rp tpl buf data) := by
  induction tpl generalizing buf with
  | nil =>
    intro p r q h
    simp only [Execute, Option.some.injEq, Prod.mk.injEq] at h
    obtain ⟨-, rfl⟩ := h
    exact ⟨[], Trace.refl p⟩
  | cons n rest ih =>
    intro p r q h
    cases n with
    | pipe f =>
      simp only [Execute] at h
      cases hf : f data with
      | error e =>
        simp only [hf, Option.some.injEq, Prod.mk.injEq] at h
        obtain ⟨-, rfl⟩ := h
        exact ⟨[], Trace.refl p⟩
      | ok s =>
        simp only [hf] at h
        exact ih _ p r q h
    | call c =>
      simp only [Execute] at h
      cases hc : callHelper env rp c p with
      | none => simp [hc] at h
      | some x =>
        obtain ⟨s, p1⟩ := x
        simp only [hc] at h
        obtain ⟨cs1, h1⟩ := callHelper_trace env rp hrp c p s p1 hc
        obtain ⟨cs2, h2⟩ := ih _ p1 r q h
        exact ⟨cs1 ++ cs2, Trace.trans h1 h2⟩

theorem renderParseBody_trace (env : Env) (exec : Template → Map → defaultParser → Pass)
    (hexec : ∀ tpl data, Traced (exec tpl data)) (name : String) (args : List Any) :
    Traced (renderParseBody env exec name args) := by
  intro p r q h
  unfold renderParseBody at h
  simp only at h
  repeat' (split at h)
  all_goals first
    | (simp at h; done)
    | (simp only [Option.some.injEq, Prod.mk.injEq] at h
       obtain ⟨-, rfl⟩ := h
       first
         | exact ⟨[], Trace.refl _⟩
         | exact hexec _ _ _ _ _ (by assumption))

theorem renderParse_trace (env : Env) (fuel : Nat) (name : String) (args : List Any) :
    Traced (renderParse env fuel name args) := by
  induction fuel generalizing name args with
  | zero =>
    exact renderParseBody_trace env _ (fun _ _ p r q h => by simp at h) name args
  | succ n ih =>
    exact renderParseBody_trace env _
      (fun tpl data => Execute_trace env _ (fun name vals => ih name vals) tpl "" data) name args

theorem layoutPass_trace (env : Env) (fuel : Nat) : Traced (layoutPass env fuel) := by
  intro p r q h
  have hexec := fun tpl data =>
    Execute_trace env _ (fun name vals => renderParse_trace env fuel name vals) tpl "" data
  unfold layoutPass at h
  simp only at h
  repeat' (split at h)
  all_goals first
    | (simp at h; done)
    | (simp only [Option.some.injEq, Prod.mk.injEq] at h
       obtain ⟨-, rfl⟩ := h
       first
         | exact ⟨[], Trace.refl _⟩
         | exact hexec _ _ _ _ _ (by assumption))

/-- The body pass: an inline view leaves a trace from the entry state; a view
found in file `f` leaves a trace from the entry state with `path` set to the
directory of `f`; a view that is not found returns the entry state. -/
theorem bodyParse_trace (env : Env) (fuel : Nat) (name : String) (args : List Any)
    (p : defaultParser) (r : Except String String) (q : defaultParser)
    (h : bodyParse env fuel name args p = some (r, q)) :
    (isInline name = true → ∃ cs, Trace p q cs) ∧
    (isInline name = false →
      (∀ e, findBodyFile env.isFile p name = .error e → q = p) ∧
      (∀ f, findBodyFile env.isFile p name = .ok f →
        ∃ cs, Trace { p with path := env.Dir f } q cs)) := by
  have hexec := fun tpl data =>
    Execute_trace env _ (fun name vals => renderParse_trace env fuel name vals) tpl "" data
  unfold bodyParse at h
  simp only at h
  constructor
  · intro hin
    simp only [hin, if_true] at h
    repeat' (split at h)
    all_goals first
      | (simp at h; done)
      | (simp only [Option.some.injEq, Prod.mk.injEq] at h
         obtain ⟨-, rfl⟩ := h
         first
           | exact ⟨[], Trace.refl _⟩
           | exact hexec _ _ _ _ _ (by assumption))
  · intro hin
    simp only [hin, Bool.false_eq_true, if_false] at h
    constructor
    · intro e he
      simp only [he, Option.some.injEq, Prod.mk.injEq] at h
      exact h.2.symm
    · intro f hf
      simp only [hf] at h
      repeat' (split at h)
      all_goals first
        | (simp at h; done)
        | (simp only [Option.some.injEq, Prod.mk.injEq] at h
           obtain ⟨-, rfl⟩ := h
           first
             | exact ⟨[], Trace.refl _⟩
             | exact hexec _ _ _ _ _ (by assumption))

/-- A run from a fresh parser: the trace starts from the fresh state, up to
the body directory. -/
theorem fresh_trace (c : defaultConnection) (body : Body) (d : String) (q : defaultParser)
    (cs : List (Call × String)) (h : Trace { newParser c body with path := d } q cs) :
    q.calls = cs ∧ q.layout = lastWrite layoutNamed cs "" ∧
    (∀ s : Scalar, s.field q = lastWrite s.written cs "") ∧
    (∀ a : Acc, a.field q = tagsOf a.appended cs) := by
  refine ⟨?_, ?_, ?_, ?_⟩
  · simpa [newParser] using h.calls
  · simpa [newParser] using h.layout
  · intro s
    have := h.scalar s
    cases s <;> simpa [newParser, Scalar.field] using this
  · intro a
    have := h.acc a
    cases a <;> simpa [newParser, Acc.field] using this

/-! ## Scalars and accumulators -/

/-- C4. For each scalar directive (title, author, keywords, description): a
call with at least one argument returns empty output and stores its first
argument; a call with no argument returns the stored value and leaves the
state unchanged; and after any execution on a fresh parser, a zero-argument
call returns the value of the last setter call made (whatever other calls
were made around it), or the empty string if no setter call was made. -/
theorem scalar_last_write_wins (env : Env) (fuel : Nat) (c : defaultConnection) (body : Body)
    (tpl : Template) (data : Map) (r : Except String String) (q : defaultParser)
    (h : Execute env (renderParse env fuel) tpl "" data (newParser c body) = some (r, q))
    (s : Scalar) :
    (∀ rp args p, directive env rp (s.call args) p = some (s.helper args p)) ∧
    (∀ p v rest, s.helper (v :: rest) p = ("", (s.helper (v :: rest) p).2) ∧
      s.field (s.helper (v :: rest) p).2 = v) ∧
    (∀ p, s.helper [] p = (s.field p, p)) ∧
    (∀ pre v rest out post, q.calls = pre ++ (s.call (v :: rest), out) :: post →
      (∀ e ∈ post, s.written e.1 = none) → s.helper [] q = (v, q)) ∧
    ((∀ e ∈ q.calls, s.written e.1 = none) → s.helper [] q = ("", q)) := by
  obtain ⟨cs, ht⟩ := Execute_trace env _ (fun name vals => renderParse_trace env fuel name vals)
    tpl "" data _ r q h
  have hf := fresh_trace c body (newParser c body).path q cs ht
  have hget : ∀ p, s.helper [] p = (s.field p, p) := by
    intro p
    cases s <;> rfl
  refine ⟨?_, ?_, hget, ?_, ?_⟩
  · intro rp args p
    cases s <;> rfl
  · intro p v rest
    cases s <;> exact ⟨rfl, rfl⟩
  · intro pre v rest out post hq hpost
    rw [hget, hf.2.2.1 s, ← hf.1, hq]
    rw [lastWrite_last (Scalar.written s) pre post _ v "" (by cases s <;> rfl) hpost]
  · intro hnone
    rw [hget, hf.2.2.1 s, ← hf.1, lastWrite_none _ _ _ hnone]

/-- A run of `scalar_last_write_wins`: the title is set to `a`, then to `b`,
and read back as `b`. -/
theorem scalar_last_write_wins_witness :
    Scalar.title.helper [] scalarAfter = ("b", scalarAfter) :=
  (scalar_last_write_wins (demoEnv [] []) 0 demoConnection (demoBody "") scalarTemplate []
    (.ok "b") scalarAfter rfl Scalar.title).2.2.2.1
    [(Call.title ["a"], ""), (Call.author ["x"], "")] "b" [] "" [(Call.title [], "b")] rfl
    (by decide)

/-- C5. After any execution on a fresh parser, `metas` (and likewise `styles`,
`scripts`) holds the tags of the `meta` (`style`, `script`) calls made, one
per call, in call order; the getter returns them joined by a newline and
leaves the state unchanged; it returns the empty string when no such call
was made; and each appending call changes its own sequence only. -/
theorem accumulators_keep_call_order (env : Env) (fuel : Nat) (c : defaultConnection)
    (body : Body) (tpl : Template) (data : Map) (r : Except String String) (q : defaultParser)
    (h : Execute env (renderParse env fuel) tpl "" data (newParser c body) = some (r, q))
    (a : Acc) :
    (∀ rp p, directive env rp a.getCall p = some (a.getter p)) ∧
    a.field q = tagsOf a.appended q.calls ∧
    a.getter q = ("\n".intercalate (tagsOf a.appended q.calls), q) ∧
    ((∀ e ∈ q.calls, a.appended e.1 = none) → a.getter q = ("", q)) ∧
    (∀ p name content https, metaHelper name content https p =
      ("", { p with metas := p.metas ++ [metaTag name content https] })) ∧
    (∀ p path args, styleHelper path args p =
      ("", { p with styles := p.styles ++ [styleTag path args] })) ∧
    (∀ p path args, scriptHelper path args p =
      ("", { p with scripts := p.scripts ++ [scriptTag path args] })) := by
  obtain ⟨cs, ht⟩ := Execute_trace env _ (fun name vals => renderParse_trace env fuel name vals)
    tpl "" data _ r q h
  have hf := fresh_trace c body (newParser c body).path q cs ht
  have hfield : a.field q = tagsOf a.appended q.calls := by
    rw [hf.1]
    exact hf.2.2.2 a
  have hget : ∀ p, a.getter p = ("\n".intercalate (a.field p), p) := by
    intro p
    cases a <;>
      simp only [Acc.getter, Acc.field, metasHelper, stylesHelper, scriptsHelper] <;>
      split <;> rename_i h0 <;> first
        | rfl
        | (rw [List.length_eq_zero] at h0; rw [h0]; rfl)
  refine ⟨?_, hfield, ?_, ?_, fun _ _ _ _ => rfl, fun _ _ _ => rfl, fun _ _ _ => rfl⟩
  · intro rp p
    cases a <;> rfl
  · rw [hget, hfield]
  · intro hnone
    rw [hget, hfield, tagsOf_none _ _ hnone]
    rfl

/-- A run of `accumulators_keep_call_order`: two equal `meta` calls around a
`style` call leave two meta tags, printed on two lines. -/
theorem accumulators_keep_call_order_witness :
    metasHelper tagAfter =
      ("<meta name=\"a\" content=\"1\" />\n<meta name=\"a\" content=\"1\" />", tagAfter) :=
  (accumulators_keep_call_order (demoEnv [] []) 0 demoConnection (demoBody "") tagTemplate []
    (.ok "") tagAfter rfl Acc.metas).2.2.1

/-! ## The two passes -/

/-- The state a body pass on a fresh parser returns carries the trace of its
calls. -/
theorem bodyParse_fresh (env : Env) (fuel : Nat) (c : defaultConnection) (body : Body)
    (name : String) (args : List Any) (r : Except String String) (q : defaultParser)
    (h : bodyParse env fuel name args (newParser c body) = some (r, q)) :
    ∃ d, Trace { newParser c body with path := d } q q.calls := by
  have ht := bodyParse_trace env fuel name args _ r q h
  cases hin : isInline name with
  | true =>
    obtain ⟨cs, hcs⟩ := ht.1 hin
    have := (fresh_trace c body (newParser c body).path q cs hcs).1
    rw [this]
    exact ⟨_, hcs⟩
  | false =>
    cases hf : findBodyFile env.isFile (newParser c body) name with
    | error e =>
      have := (ht.2 hin).1 e hf
      subst this
      exact ⟨(newParser c body).path, Trace.refl _⟩
    | ok f =>
      obtain ⟨cs, hcs⟩ := (ht.2 hin).2 f hf
      have := (fresh_trace c body _ q cs hcs).1
      rw [this]
      exact ⟨_, hcs⟩

/-- C2 (as stated) fails when the layout directive is called with the empty
name: the body pass of `emptyLayoutBody` calls `layout ""` and prints `hi`;
`layoutParse` returns that text, while a layout pass from that state would return
the error `layout  not exist`. -/
theorem layout_empty_name_no_second_pass :
    bodyParse emptyLayoutEnv 0 emptyLayoutBody.View [Any.map emptyLayoutBody.Model]
      (newParser demoConnection emptyLayoutBody) = some (.ok "hi\n", emptyLayoutAfter) ∧
    emptyLayoutAfter.calls = [(Call.layout "" [], "")] ∧
    layoutParse emptyLayoutEnv 0 (newParser demoConnection emptyLayoutBody) =
      some (.ok "hi\n", emptyLayoutAfter) ∧
    layoutPass emptyLayoutEnv 0 { emptyLayoutAfter with render := "hi\n" } =
      some (.error "layout  not exist", { emptyLayoutAfter with render := "hi\n" }) :=
  ⟨rfl, rfl, rfl, rfl⟩

/-- C2 (amended). When the body pass of a render succeeds with output `B`:
if the layout directive was never called, or the last call of it passed the
empty name, `layoutParse` returns exactly `B` with no error and the state
of the body pass; if the last call of the layout directive passed a
non-empty name, `layoutParse` is the layout pass run with `render` set to
`B`; and in every layout pass entered with `render = B`, whatever the
layout model, every call of the body directive returns exactly `B`. -/
theorem layoutParse_two_passes (env : Env) (fuel : Nat) (c : defaultConnection) (body : Body)
    (B : String) (p1 : defaultParser)
    (hbody : bodyParse env fuel body.View [Any.map body.Model] (newParser c body) =
      some (.ok B, p1)) :
    ((∀ e ∈ p1.calls, layoutNamed e.1 = none) →
      layoutParse env fuel (newParser c body) = some (.ok B, p1)) ∧
    (∀ pre name vals out post, p1.calls = pre ++ (Call.layout name vals, out) :: post →
      (∀ e ∈ post, layoutNamed e.1 = none) →
      (name = "" → layoutParse env fuel (newParser c body) = some (.ok B, p1)) ∧
      (name ≠ "" → layoutParse env fuel (newParser c body) =
        layoutPass env fuel { p1 with model := some (p1.model.getD []), render := B })) ∧
    (∀ p r q, p.render = B → layoutPass env fuel p = some (r, q) →
      ∃ cs, q.calls = p.calls ++ cs ∧ ∀ out, (Call.body, out) ∈ cs → out = B) := by
  obtain ⟨d, ht⟩ := bodyParse_fresh env fuel c body _ _ _ _ hbody
  have hlay := (fresh_trace c body d p1 p1.calls ht).2.1
  have hunf : layoutParse env fuel (newParser c body) =
      if p1.layout = "" then some (.ok B, p1)
      else layoutPass env fuel { p1 with model := some (p1.model.getD []), render := B } := by
    have hb : bodyParse env fuel (newParser c body).body.View
        [Any.map (newParser c body).body.Model] (newParser c body) = some (.ok B, p1) := hbody
    unfold layoutParse
    simp only [hb]
    split
    · rfl
    · cases hm : p1.model <;> simp [hm]
  refine ⟨?_, ?_, ?_⟩
  · intro hnone
    rw [hunf, hlay, lastWrite_none _ _ _ hnone]
    simp
  · intro pre name vals out post hq hpost
    have hname : p1.layout = name := by
      rw [hlay, hq]
      exact lastWrite_last layoutNamed pre post _ name "" rfl hpost
    constructor
    · intro h0
      rw [hunf, hname, h0]
      simp
    · intro h0
      rw [hunf, hname]
      simp [h0]
  · intro p r q hp hq
    obtain ⟨cs, hcs⟩ := layoutPass_trace env fuel p r q hq
    refine ⟨cs, hcs.calls, ?_⟩
    intro out hout
    rw [← hp]
    exact hcs.bodyOut out hout

/-- A run of `layoutParse_two_passes`: the body selects the layout `main`, so
the result is the layout pass, whose body directive prints the body text
`Hi`. -/
theorem layoutParse_two_passes_witness :
    layoutParse mainEnv 0 (newParser demoConnection mainBody) =
      layoutPass mainEnv 0 { mainAfter with model := some (mainAfter.model.getD []),
                                            render := "Hi\n" } ∧
    (layoutParse mainEnv 0 (newParser demoConnection mainBody)).map Prod.fst =
      some (.ok "<html>Hi\n</html>") :=
  ⟨((layoutParse_two_passes mainEnv 0 demoConnection mainBody "Hi\n" mainAfter rfl).2.1
      [] "main" [] "" [] rfl (by decide)).2 (by decide), rfl⟩

/-! ## The render directive -/

theorem render_marker (x : String) :
    "render error: " ++ ("render " ++ x) = "render error: render " ++ x := by
  rw [← String.append_assoc]
  rfl

/-- C3. The render directive returns a string in every case in which the
nested pass returns: the text `render error: ` followed by the error of
`renderParse` when that fails, and the nested output unchanged otherwise;
for a file name (no newline) none of whose render candidates exists, it
returns `render error: render <name> not exist` and leaves the state
unchanged, for every fuel. -/
theorem renderHelper_recovers (env : Env) (fuel : Nat) (name : String) (vals : List Any)
    (p : defaultParser) :
    (∀ e q, renderParse env fuel name vals p = some (.error e, q) →
      renderHelper (renderParse env fuel) name vals p = some ("render error: " ++ e, q)) ∧
    (∀ out q, renderParse env fuel name vals p = some (.ok out, q) →
      renderHelper (renderParse env fuel) name vals p = some (out, q)) ∧
    ((renderHelper (renderParse env fuel) name vals p).isSome =
      (renderParse env fuel name vals p).isSome) ∧
    (isInline name = false → (∀ f ∈ renderCandidates p name, env.isFile f = false) →
      renderParse env fuel name vals p = some (.error ("render " ++ name ++ " not exist"), p) ∧
      renderHelper (renderParse env fuel) name vals p =
        some ("render error: render " ++ name ++ " not exist", p) ∧
      callHelper env (renderParse env fuel) (Call.render name vals) p =
        some ("render error: render " ++ name ++ " not exist",
          { p with calls := p.calls ++
              [(Call.render name vals, "render error: render " ++ name ++ " not exist")] })) := by
  refine ⟨?_, ?_, ?_, ?_⟩
  · intro e q h
    simp only [renderHelper, h]
  · intro out q h
    simp only [renderHelper, h]
  · unfold renderHelper
    cases renderParse env fuel name vals p with
    | none => rfl
    | some x =>
      obtain ⟨r, q⟩ := x
      cases r <;> rfl
  · intro hin hmiss
    have hfind : findRenderFile env.isFile p name =
        .error ("render " ++ name ++ " not exist") := by
      have := (statLoop_eq_none env.isFile (renderCandidates p name)).mpr hmiss
      simp only [findRenderFile, this]
    have hrp : renderParse env fuel name vals p =
        some (.error ("render " ++ name ++ " not exist"), p) := by
      cases fuel <;> simp [renderParse, renderParseBody, hin, hfind]
    refine ⟨hrp, ?_, ?_⟩
    · simp only [renderHelper, hrp]
      simp [String.append_assoc, render_marker]
    · simp only [callHelper, directive, renderHelper, hrp]
      simp [String.append_assoc, render_marker]

/-- A run of `renderHelper_recovers` with no file at all: rendering the
partial `nav` yields the inline marker. -/
theorem renderHelper_recovers_witness :
    renderHelper (renderParse (demoEnv [] []) 3) "nav" []
        (newParser demoConnection (demoBody "")) =
      some ("render error: render nav not exist", newParser demoConnection (demoBody "")) :=
  ((renderHelper_recovers (demoEnv [] []) 3 "nav" []
    (newParser demoConnection (demoBody ""))).2.2.2 (by decide) (by decide)).2.1

/-! ## The directory of the body file -/

/-- C10 (as stated) fails for layout resolution: after the body `home` was
loaded from `r/en/home/index.html`, the candidate list of `findLayoutFile`
starts with `r/en/home/main.html`, a path in the directory of the body file,
and that file is the layout selected. -/
theorem layout_candidates_use_body_directory :
    bodyParse homeEnv 0 "home" [Any.map []] (newParser demoConnection (demoBody "")) =
      some (.ok "Home", homeAfter) ∧
    homeAfter.path = "r/en/home" ∧
    layoutCandidates homeAfter "main" =
      ["r/en/home/main.html", "r/en/main.html", "r/en/main.html", "r/shared/main.html",
       "r/main.html"] ∧
    findLayoutFile homeEnv.isFile homeAfter "main" = .ok "r/en/home/main.html" :=
  ⟨rfl, rfl, by decide, rfl⟩

/-- C10 (amended). The body pass writes `path` only when it resolves a
file-based body (to `filepath.Dir` of the file) and leaves it untouched for
an inline body.  In the state it returns, `findRenderFile` and
`findLayoutFile` both put `path/name.html` first in their lists exactly when
`path` is non-empty, followed by the list they build for an empty `path`;
the list of `findBodyFile` does not depend on `path`. -/
theorem body_directory_candidates (env : Env) (fuel : Nat) (view : String) (args : List Any)
    (p : defaultParser) (r : Except String String) (q : defaultParser)
    (h : bodyParse env fuel view args p = some (r, q)) (name : String) :
    (isInline view = true → q.path = p.path) ∧
    (isInline view = false → ∀ f, findBodyFile env.isFile p view = .ok f → q.path = env.Dir f) ∧
    renderCandidates q name =
      (if q.path ≠ "" then [q.path ++ "/" ++ name ++ ".html"] else []) ++
        renderCandidates { q with path := "" } name ∧
    layoutCandidates q name =
      (if q.path ≠ "" then [q.path ++ "/" ++ name ++ ".html"] else []) ++
        layoutCandidates { q with path := "" } name ∧
    (∀ d, bodyCandidates { q with path := d } name = bodyCandidates q name) := by
  have ht := bodyParse_trace env fuel view args p r q h
  refine ⟨?_, ?_, ?_, ?_, fun _ => rfl⟩
  · intro hin
    obtain ⟨cs, hcs⟩ := ht.1 hin
    exact hcs.path
  · intro hin f hf
    obtain ⟨cs, hcs⟩ := (ht.2 hin).2 f hf
    exact hcs.path
  · by_cases hp : q.path = "" <;> by_cases hsite : q.body.Site = "" <;>
      simp [renderCandidates, hp, hsite]
  · by_cases hp : q.path = "" <;> by_cases hsite : q.body.Site = "" <;>
      simp [layoutCandidates, hp, hsite]

/-- A run of `body_directory_candidates` on the view `home`, loaded from
`r/en/home/index.html`: the partial `nav` is looked up in `r/en/home` first. -/
theorem body_directory_candidates_witness :
    homeAfter.path = demoDir "r/en/home/index.html" ∧
    renderCandidates homeAfter "nav" =
      ["r/en/home/nav.html"] ++ renderCandidates { homeAfter with path := "" } "nav" :=
  ⟨(body_directory_candidates homeEnv 0 "home" [Any.map []]
      (newParser demoConnection (demoBody "")) (.ok "Home") homeAfter rfl "nav").2.1
      (by decide) "r/en/home/index.html" rfl,
   (body_directory_candidates homeEnv 0 "home" [Any.map []]
      (newParser demoConnection (demoBody "")) (.ok "Home") homeAfter rfl "nav").2.2.1⟩

/-! ## Go map lemmas -/

theorem GoMap.get_set_same {V : Type} (m : GoMap V) (k : String) (v : V) :
    GoMap.get (GoMap.set m k v) k = some v := by
  induction m with
  | nil => simp [GoMap.set, GoMap.get]
  | cons kv rest ih =>
    obtain ⟨k0, v0⟩ := kv
    by_cases h : k0 = k
    · simp [GoMap.set, GoMap.get, h]
    · simp [GoMap.set, GoMap.get, h, ih]

theorem GoMap.get_set_ne {V : Type} (m : GoMap V) (k k1 : String) (v : V) (hne : k ≠ k1) :
    GoMap.get (GoMap.set m k v) k1 = GoMap.get m k1 := by
  induction m with
  | nil => simp [GoMap.set, GoMap.get, hne]
  | cons kv rest ih =>
    obtain ⟨k0, v0⟩ := kv
    by_cases h : k0 = k
    · subst h
      simp [GoMap.set, GoMap.get, hne]
    · by_cases h1 : k0 = k1
      · subst h1
        simp [GoMap.set, GoMap.get, h]
      · simp [GoMap.set, GoMap.get, h, h1, ih]

/-- A loop over pairs whose body touches only the key of the pair leaves the
other keys alone. -/
theorem fold_get_other {V W : Type} (g : GoMap W → String → V → GoMap W)
    (hne : ∀ h k v k1, k ≠ k1 → GoMap.get (g h k v) k1 = GoMap.get h k1)
    (l : List (String × V)) (h : GoMap W) (k : String) (hl : ∀ kv ∈ l, kv.1 ≠ k) :
    GoMap.get (l.foldl (fun h kv => g h kv.1 kv.2) h) k = GoMap.get h k := by
  induction l generalizing h with
  | nil => rfl
  | cons kv rest ih =>
    simp only [List.foldl_cons]
    rw [ih _ (fun kv1 h1 => hl kv1 (by simp [h1]))]
    exact hne h kv.1 kv.2 k (hl kv (by simp))

theorem fold_get_filter {V W : Type} (g : GoMap W → String → V → GoMap W)
    (F : Option W → V → Option W)
    (hsame : ∀ h k v, GoMap.get (g h k v) k = F (GoMap.get h k) v)
    (hne : ∀ h k v k1, k ≠ k1 → GoMap.get (g h k v) k1 = GoMap.get h k1)
    (l : List (String × V)) (h1 h2 : GoMap W) (k k0 : String) (hk : k0 ≠ k)
    (hh : GoMap.get h1 k = GoMap.get h2 k) :
    GoMap.get ((l.filter (fun kv => decide (kv.1 ≠ k0))).foldl (fun h kv => g h kv.1 kv.2) h1) k =
      GoMap.get (l.foldl (fun h kv => g h kv.1 kv.2) h2) k := by
  induction l generalizing h1 h2 with
  | nil => simpa using hh
  | cons kv rest ih =>
    by_cases hkv : kv.1 = k0
    · have : (List.filter (fun kv => decide (kv.1 ≠ k0)) (kv :: rest)) =
          List.filter (fun kv => decide (kv.1 ≠ k0)) rest := by
        simp [List.filter_cons, hkv]
      rw [this, List.foldl_cons]
      apply ih
      rw [hne h2 kv.1 kv.2 k (by rw [hkv]; exact hk)]
      exact hh
    · have : (List.filter (fun kv => decide (kv.1 ≠ k0)) (kv :: rest)) =
          kv :: List.filter (fun kv => decide (kv.1 ≠ k0)) rest := by
        simp [List.filter_cons, hkv]
      rw [this, List.foldl_cons, List.foldl_cons]
      apply ih
      by_cases hk1 : kv.1 = k
      · rw [← hk1] at hh ⊢
        rw [hsame, hsame, hh]
      · rw [hne _ _ _ _ hk1, hne _ _ _ _ hk1]
        exact hh

/-- A `range` loop whose body touches only the key of the visited pair: the
result at key `k` is decided by `src[k]` alone. -/
theorem range_fold_get {V W : Type} (g : GoMap W → String → V → GoMap W)
    (F : Option W → V → Option W)
    (hsame : ∀ h k v, GoMap.get (g h k v) k = F (GoMap.get h k) v)
    (hne : ∀ h k v k1, k ≠ k1 → GoMap.get (g h k v) k1 = GoMap.get h k1)
    (src : GoMap V) (h : GoMap W) (k : String) :
    GoMap.get ((GoMap.range src).foldl (fun h kv => g h kv.1 kv.2) h) k =
      match GoMap.get src k with
      | some v => F (GoMap.get h k) v
      | none => GoMap.get h k := by
  induction src generalizing h with
  | nil => rfl
  | cons kv rest ih =>
    obtain ⟨k0, v0⟩ := kv
    simp only [GoMap.range, List.foldl_cons]
    by_cases hk : k0 = k
    · subst hk
      rw [fold_get_other g hne _ _ _ (by
        intro kv hkv
        simpa using (List.mem_filter.mp hkv).2)]
      simp [GoMap.get, hsame]
    · rw [fold_get_filter g F hsame hne (GoMap.range rest) _ (g h k0 v0) k k0 hk rfl, ih]
      simp only [GoMap.get, hk, if_false]
      rw [hne h k0 v0 k hk]

/-! ## The directive table -/

theorem mergeHelpers_get (m : Module) (body : Body) (k : String) :
    GoMap.get (m.mergeHelpers body).Helpers k =
      match GoMap.get body.Helpers k with
      | some v => some v
      | none => GoMap.get m.helperActions k := by
  have h := range_fold_get
    (fun (helpers : Map) (key : String) (helper : Any) =>
      match GoMap.get helpers key with
      | some _ => helpers
      | none => GoMap.set helpers key helper)
    (fun old helper => match old with
      | some v => some v
      | none => some helper)
    (by
      intro h k v
      cases hg : GoMap.get h k with
      | none => simp [hg, GoMap.get_set_same]
      | some w => simp [hg])
    (by
      intro h k v k1 hne
      cases hg : GoMap.get h k with
      | none => simp [hg, GoMap.get_set_ne _ _ _ _ hne]
      | some w => simp [hg])
    m.helperActions body.Helpers k
  simp only [Module.mergeHelpers]
  rw [h]
  cases GoMap.get m.helperActions k <;> cases GoMap.get body.Helpers k <;> rfl

theorem copyHelpers_get (src : Map) (k : String) :
    GoMap.get ((GoMap.range src).foldl
      (fun helpers kv => GoMap.set helpers kv.1 (Callable.value kv.2)) []) k =
      (GoMap.get src k).map Callable.value := by
  have h := range_fold_get
    (fun (helpers : GoMap Callable) (key : String) (v : Any) =>
      GoMap.set helpers key (Callable.value v))
    (fun _ v => some (Callable.value v))
    (fun h k v => GoMap.get_set_same h k _)
    (fun h k v k1 hne => GoMap.get_set_ne h k k1 _ hne)
    src [] k
  rw [h]
  cases GoMap.get src k <;> rfl

/-- C6. The helper table of the parser that renders a request merged by
`Module.Parse`: each of the thirteen fixed names maps to the parser's own
method, whatever the request and the registry hold under that name; every
other name maps to the request's value when the request has one, and
otherwise to the registered helper action, if any. -/
theorem directive_table_precedence (m : Module) (c : defaultConnection) (body : Body) :
    (∀ nm ∈ fixedDirectives,
      GoMap.get (newParser c (m.mergeHelpers body)).engine nm.1 = some (Callable.method nm.2)) ∧
    (∀ k, (∀ nm ∈ fixedDirectives, nm.1 ≠ k) →
      GoMap.get (newParser c (m.mergeHelpers body)).engine k =
        match GoMap.get body.Helpers k with
        | some v => some (Callable.value v)
        | none => (GoMap.get m.helperActions k).map Callable.value) := by
  constructor
  · intro nm hnm
    simp only [fixedDirectives, List.mem_cons, List.mem_singleton, List.not_mem_nil,
      or_false] at hnm
    rcases hnm with h | h | h | h | h | h | h | h | h | h | h | h | h <;> subst h <;>
      simp [newParser, GoMap.get_set_same, GoMap.get_set_ne]
  · intro k hk
    have hk1 : ∀ n f, (n, f) ∈ fixedDirectives → n ≠ k := fun n f h => hk (n, f) h
    simp only [newParser]
    rw [GoMap.get_set_ne _ _ _ _ (hk1 "scripts" .scriptsHelper (by simp [fixedDirectives])),
      GoMap.get_set_ne _ _ _ _ (hk1 "script" .scriptHelper (by simp [fixedDirectives])),
      GoMap.get_set_ne _ _ _ _ (hk1 "styles" .stylesHelper (by simp [fixedDirectives])),
      GoMap.get_set_ne _ _ _ _ (hk1 "style" .styleHelper (by simp [fixedDirectives])),
      GoMap.get_set_ne _ _ _ _ (hk1 "metas" .metasHelper (by simp [fixedDirectives])),
      GoMap.get_set_ne _ _ _ _ (hk1 "meta" .metaHelper (by simp [fixedDirectives])),
      GoMap.get_set_ne _ _ _ _ (hk1 "render" .renderHelper (by simp [fixedDirectives])),
      GoMap.get_set_ne _ _ _ _ (hk1 "body" .bodyHelper (by simp [fixedDirectives])),
      GoMap.get_set_ne _ _ _ _ (hk1 "description" .descriptionHelper (by simp [fixedDirectives])),
      GoMap.get_set_ne _ _ _ _ (hk1 "keywords" .keywordsHelper (by simp [fixedDirectives])),
      GoMap.get_set_ne _ _ _ _ (hk1 "author" .authorHelper (by simp [fixedDirectives])),
      GoMap.get_set_ne _ _ _ _ (hk1 "title" .titleHelper (by simp [fixedDirectives])),
      GoMap.get_set_ne _ _ _ _ (hk1 "layout" .layoutHelper (by simp [fixedDirectives])),
      copyHelpers_get, mergeHelpers_get]
    cases GoMap.get body.Helpers k <;> rfl

/-! ## The module lifecycle -/

theorem Module.SameLink.linked {m n : Module} (h : Module.SameLink m n) (hm : m.Linked) :
    n.Linked := by
  unfold Module.Linked Module.connection at *
  rw [h.1, h.2]
  exact hm

theorem apply_linked (DEFAULT : String) (m n : Module) (op : Op) (hm : m.Linked)
    (h : op.apply DEFAULT m = .ok n) : n.Linked := by
  cases op with
  | Setup =>
    simp only [Op.apply, Except.ok.injEq] at h
    subst h
    refine Module.SameLink.linked ?_ hm
    unfold Module.Setup
    split <;> exact ⟨rfl, rfl⟩
  | Open =>
    simp only [Op.apply, Module.Open] at h
    split at h
    · simp only [Except.ok.injEq] at h
      subst h
      exact hm
    · repeat' (split at h)
      all_goals first
        | (simp at h; done)
        | (simp only [Except.ok.injEq] at h
           subst h
           rfl)
  | Start =>
    simp only [Op.apply, Except.ok.injEq] at h
    subst h
    refine Module.SameLink.linked ?_ hm
    unfold Module.Start
    split <;> exact ⟨rfl, rfl⟩
  | Stop =>
    simp only [Op.apply, Except.ok.injEq] at h
    subst h
    refine Module.SameLink.linked ?_ hm
    unfold Module.Stop
    split <;> exact ⟨rfl, rfl⟩
  | Close =>
    simp only [Op.apply, Except.ok.injEq] at h
    subst h
    rfl
  | Config global =>
    simp only [Op.apply, Except.ok.injEq] at h
    subst h
    refine Module.SameLink.linked ?_ hm
    unfold Module.Config
    split
    · exact ⟨rfl, rfl⟩
    · split <;> exact ⟨rfl, rfl⟩
  | RegisterConfig config =>
    simp only [Op.apply, Except.ok.injEq] at h
    subst h
    refine Module.SameLink.linked ?_ hm
    unfold Module.RegisterConfig
    split <;> exact ⟨rfl, rfl⟩
  | RegisterDriver override name driver =>
    simp only [Op.apply, Module.RegisterDriver] at h
    refine Module.SameLink.linked ?_ hm
    repeat' (split at h)
    all_goals first
      | (simp at h; done)
      | (simp only [Except.ok.injEq] at h
         subst h
         exact ⟨rfl, rfl⟩)
  | RegisterHelper override name helper =>
    simp only [Op.apply, Except.ok.injEq] at h
    subst h
    exact Module.SameLink.linked ⟨rfl, rfl⟩ hm

theorem runOps_linked (DEFAULT : String) (ops : List Op) (m n : Module) (hm : m.Linked)
    (h : runOps DEFAULT m ops = .ok n) : n.Linked := by
  induction ops generalizing m with
  | nil =>
    simp only [runOps, Except.ok.injEq] at h
    subst h
    exact hm
  | cons op rest ih =>
    simp only [runOps] at h
    cases ha : op.apply DEFAULT m with
    | error e => simp [ha] at h
    | ok m1 =>
      simp only [ha] at h
      exact ih m1 (apply_linked DEFAULT m m1 op hm ha) h

/-- C9. In every module state reached from the initial state by lifecycle
operations, the guard of `Module.Parse` finds no connection exactly when the
flag `connected` is false; then `Parse` returns the empty string with
`ErrInvalidConnection`; when the flag is true there is a connection and
`Parse` returns what its `Parse` returns on the request with the merged
helpers.  The flag is false in the initial state and after `Close`, and
true after an `Open` that returns. -/
theorem parse_requires_connection (DEFAULT : String) (ops : List Op) (m : Module) (body : Body)
    (h : runOps DEFAULT (module DEFAULT) ops = .ok m) :
    (m.connection.isNone = !m.connected) ∧
    (m.connected = false → m.Parse body = ("", some Error.ErrInvalidConnection)) ∧
    (m.connected = true →
      m.connection.map (fun conn => conn.Parse (m.mergeHelpers body)) = some (m.Parse body)) ∧
    (module DEFAULT).connected = false ∧
    m.Close.connected = false ∧
    (∀ n, m.Open = .ok n → n.connected = true) := by
  have h0 : (module DEFAULT).Linked := rfl
  have hl : m.Linked := runOps_linked DEFAULT ops _ m h0 h
  unfold Module.Linked at hl
  refine ⟨?_, ?_, ?_, rfl, rfl, ?_⟩
  · rw [← hl]
    cases m.connection <;> rfl
  · intro hc
    rw [hc] at hl
    unfold Module.connection at hl
    unfold Module.Parse
    cases hi : m.inst with
    | none => rfl
    | some inst =>
      cases hcn : inst.conn with
      | none => simp [hcn]
      | some conn => simp [hi, hcn] at hl
  · intro hc
    rw [hc] at hl
    unfold Module.connection at hl ⊢
    unfold Module.Parse
    cases hi : m.inst with
    | none => simp [hi] at hl
    | some inst =>
      cases hcn : inst.conn with
      | none => simp [hi, hcn] at hl
      | some conn => simp [hcn]
  · intro n hn
    simp only [Module.Open] at hn
    split at hn
    · rename_i hc
      simp only [Except.ok.injEq] at hn
      subst hn
      exact hc
    · repeat' (split at hn)
      all_goals first
        | (simp at hn; done)
        | (simp only [Except.ok.injEq] at hn
           subst hn
           rfl)

/-- A run of `parse_requires_connection`: after the driver is registered and
`Setup` and `Open` ran, `Parse` is the connection's `Parse`; after a further
`Close` it returns `ErrInvalidConnection`. -/
theorem parse_requires_connection_witness :
    openModule.connection.map (fun conn => conn.Parse (openModule.mergeHelpers (demoBody ""))) =
      some (openModule.Parse (demoBody "")) ∧
    closedModule.Parse (demoBody "") = ("", some Error.ErrInvalidConnection) :=
  ⟨(parse_requires_connection "default"
      [Op.RegisterDriver false "" (some echoDriver), Op.Setup, Op.Open] openModule
      (demoBody "") rfl).2.2.1 rfl,
   (parse_requires_connection "default"
      [Op.RegisterDriver false "" (some echoDriver), Op.Setup, Op.Open, Op.Close] closedModule
      (demoBody "") rfl).2.1 rfl⟩

end View
